import Mathlib

/-!
# The note store of notes.cpp

A shallow embedding of the note-management functions of `src/notes.cpp`
(`safeIndex`, `addNote`, `viewNote`, `deleteNote`, `viewDeletedNote`,
`processBuffer`, `showSafeStats`, `showNoteSummary`, `clearAllNotes`) and theorems
about them.

Modelling decisions.

* The globals `g_notes`, `secureStats` and the function-local static
  `cachedIdx` of `viewDeletedNote` are the fields of `State`; every function
  takes the state and returns the new state together with what it printed.
* `new Note` returns a fresh address, the position of the object in `heap`;
  `delete` turns the object at that address into `Obj.freed`.  A `Note` is
  modelled together with the `char` array behind `buf`, which every path of
  the program allocates and releases together with the `Note`.
* A `char` array is a list of cells.  A cell that `new char[n]` left
  uninitialised is `none`; its value is indeterminate.
* `uint32_t` arithmetic is arithmetic on `Nat` reduced modulo `2^32`.
  `size_t` values (indices, sizes and the `secureStats` counters) are plain
  `Nat`: with a 64-bit `size_t` none of them can reach `2^64` in fewer than
  `2^32` calls.
* Undefined behaviour (a write or read outside an allocation, the use of a
  freed object) is the result `Except.error` with the `Fault` that names it.
* What `cin` delivers is an argument: the parsed `uint32_t` length, the
  parsed `size_t` index, and for `cin.read` the bytes still available on the
  stream.  `logAction` prints a time stamp; only its action string is kept.
-/

namespace Notes

/-- The number of values of a `uint32_t`, `2^32`. -/
abbrev UINT32_MOD : Nat := 4294967296

/-- The constant `SIZE_MAX` of a 64-bit `size_t`, `2^64 - 1`. -/
abbrev SIZE_MAX : Nat := 18446744073709551615

/-- One `char` of an array: `some b` once written, `none` while uninitialised. -/
abbrev Cell := Option Nat

/-- The `struct Note`: `len`, and the array that `buf` points to (its length is
the number of bytes that were allocated for it). -/
structure Note where
  len : Nat
  buf : List Cell
deriving DecidableEq, Repr

/-- An object made by `new Note`: still allocated, or already deleted. -/
inductive Obj where
  | live (n : Note)
  | freed
deriving DecidableEq, Repr

/-- Undefined behaviour that an operation can run into. -/
inductive Fault where
  | heapOverflow
  | outOfBoundsRead
  | useAfterFree
  | nullDeref
  | uninitialisedRead
deriving DecidableEq, Repr

/-- The four entries of the map `secureStats`. -/
structure Stats where
  notes_created : Nat
  notes_deleted : Nat
  total_alloc : Nat
  total_freed : Nat
deriving DecidableEq, Repr

/-- The state of the program: the heap of `Note` objects, the vector
`g_notes` of pointers (`none` is `nullptr`), the map `secureStats`, and the
static `cachedIdx` of `viewDeletedNote`. -/
structure State where
  heap : List Obj
  g_notes : List (Option Nat)
  secureStats : Stats
  cachedIdx : Nat
deriving DecidableEq, Repr

/-- One item written to `cout`. -/
inductive Out where
  | str (s : String)
  | num (n : Nat)
  | raw (bs : List Cell)
  | ptr (p : Option Nat)
  | log (action : String) (n : Option Nat)
deriving DecidableEq, Repr

deriving instance DecidableEq for Except

/-- The state at program start: no note, every counter `0`, nothing cached. -/
def init : State :=
  { heap := [], g_notes := [], secureStats := ⟨0, 0, 0, 0⟩, cachedIdx := SIZE_MAX }

/-- The object an address points to, when it is still allocated. -/
def deref (heap : List Obj) (p : Nat) : Option Note :=
  match heap[p]? with
  | some (Obj.live n) => some n
  | _ => none

/-- The function `safeIndex`: `idx < g_notes.size() && g_notes[idx] != nullptr`. -/
def safeIndex (s : State) (idx : Nat) : Bool :=
  decide (idx < s.g_notes.length) && (s.g_notes.getD idx none).isSome

/-- What `promptIndex` prints before it reads the index. -/
def promptIndex : List Out := [Out.str "Enter note index: "]

/-- The function `addNote`, for the length `len` read from `cin` and the bytes
`input` available to `cin.read`. -/
def addNote (s : State) (len : Nat) (input : List Nat) : Except Fault (State × List Out) :=
  let allocSize := (len * 2) % UINT32_MOD
  let fresh : List Cell := List.replicate allocSize none
  let got := input.take len
  if allocSize < got.length then Except.error Fault.heapOverflow
  else
    let buf := got.map some ++ fresh.drop got.length
    let p := s.heap.length
    let g := s.g_notes ++ [some p]
    let st : Stats :=
      { s.secureStats with
        notes_created := s.secureStats.notes_created + 1
        total_alloc := s.secureStats.total_alloc + allocSize }
    Except.ok
      ({ s with heap := s.heap ++ [Obj.live ⟨len, buf⟩], g_notes := g, secureStats := st },
       [Out.str "Enter note length: ",
        Out.str "Enter note content (", Out.num len, Out.str " bytes expected):\n",
        Out.log "Added note of length " (some len),
        Out.str "Note added at index ", Out.num (g.length - 1), Out.str "\n"])

/-- The function `viewNote`, for the index `idx` read by `promptIndex`. -/
def viewNote (s : State) (idx : Nat) : Except Fault (State × List Out) :=
  if !safeIndex s idx then Except.ok (s, promptIndex ++ [Out.str "Invalid index.\n"])
  else
    match s.g_notes.getD idx none with
    | none => Except.error Fault.nullDeref
    | some p =>
      match deref s.heap p with
      | none => Except.error Fault.useAfterFree
      | some n =>
        if n.buf.length < n.len then Except.error Fault.outOfBoundsRead
        else
          Except.ok
            (s, promptIndex ++
              [Out.str "[Note ", Out.num idx, Out.str "] (len=", Out.num n.len, Out.str "):\n",
               Out.raw (n.buf.take n.len), Out.str "\n"])

/-- The function `deleteNote`, for the index `idx` read by `promptIndex`. -/
def deleteNote (s : State) (idx : Nat) : Except Fault (State × List Out) :=
  if !safeIndex s idx then Except.ok (s, promptIndex ++ [Out.str "Invalid index.\n"])
  else
    match s.g_notes.getD idx none with
    | none => Except.error Fault.nullDeref
    | some p =>
      match deref s.heap p with
      | none => Except.error Fault.useAfterFree
      | some _ =>
        let st : Stats :=
          { s.secureStats with
            notes_deleted := s.secureStats.notes_deleted + 1
            total_freed := s.secureStats.total_freed + 1 }
        Except.ok
          ({ s with heap := s.heap.set p Obj.freed, g_notes := s.g_notes.set idx none,
                    secureStats := st },
           promptIndex ++ [Out.log "Deleted note at index " (some idx), Out.str "Note deleted.\n"])

/-- The function `viewDeletedNote`; `idx` is what `promptIndex` reads on the
call that caches an index. -/
def viewDeletedNote (s : State) (idx : Nat) : Except Fault (State × List Out) :=
  if s.cachedIdx = SIZE_MAX then
    Except.ok
      ({ s with cachedIdx := idx },
       [Out.str "Caching a deleted note index first...\n",
        Out.str "Delete a note (option 3) and then use this option again.\n"] ++ promptIndex)
  else if s.g_notes.length ≤ s.cachedIdx then
    Except.ok ({ s with cachedIdx := SIZE_MAX }, [Out.str "Index out of range. Resetting cache.\n"])
  else
    let hd : List Out :=
      [Out.str "Attempting to display deleted note at index ", Out.num s.cachedIdx, Out.str "...\n"]
    match s.g_notes.getD s.cachedIdx none with
    | none => Except.ok (s, hd ++ [Out.str "[dangling pointer] ", Out.ptr none, Out.str "\n"])
    | some p =>
      match deref s.heap p with
      | none => Except.error Fault.useAfterFree
      | some n =>
        if n.buf.length < n.len then Except.error Fault.outOfBoundsRead
        else Except.ok (s, hd ++ [Out.raw (n.buf.take n.len), Out.str "\n"])

/-- The loop of `showSafeStats` over `g_notes`: the pair `(count, totalBytes)`. -/
def activeStats (heap : List Obj) : List (Option Nat) → Nat × Nat → Except Fault (Nat × Nat)
  | [], acc => Except.ok acc
  | none :: ps, acc => activeStats heap ps acc
  | some p :: ps, acc =>
    match deref heap p with
    | none => Except.error Fault.useAfterFree
    | some n => activeStats heap ps (acc.1 + 1, acc.2 + n.len)

/-- The function `showSafeStats`. -/
def showSafeStats (s : State) : Except Fault (State × List Out) :=
  match activeStats s.heap s.g_notes (0, 0) with
  | Except.error e => Except.error e
  | Except.ok (count, totalBytes) =>
    Except.ok
      (s, [Out.str "\nStatistics:\n",
           Out.str " - Active notes: ", Out.num count, Out.str "\n",
           Out.str " - Total characters stored: ", Out.num totalBytes, Out.str "\n",
           Out.str " - ", Out.str "notes_created", Out.str ": ",
             Out.num s.secureStats.notes_created, Out.str "\n",
           Out.str " - ", Out.str "notes_deleted", Out.str ": ",
             Out.num s.secureStats.notes_deleted, Out.str "\n",
           Out.str " - ", Out.str "total_alloc", Out.str ": ",
             Out.num s.secureStats.total_alloc, Out.str "\n",
           Out.str " - ", Out.str "total_freed", Out.str ": ",
             Out.num s.secureStats.total_freed, Out.str "\n"])

/-- The loop of `showNoteSummary` from index `i` on: the pairs `(i, len)` it prints. -/
def summaryFrom (heap : List Obj) : List (Option Nat) → Nat → Except Fault (List (Nat × Nat))
  | [], _ => Except.ok []
  | none :: ps, i => summaryFrom heap ps (i + 1)
  | some p :: ps, i =>
    match deref heap p with
    | none => Except.error Fault.useAfterFree
    | some n =>
      match summaryFrom heap ps (i + 1) with
      | Except.error e => Except.error e
      | Except.ok rest => Except.ok ((i, n.len) :: rest)

/-- The line `showNoteSummary` prints for one live note. -/
def summaryLine (e : Nat × Nat) : List Out :=
  [Out.str " - Note ", Out.num e.1, Out.str ": length = ", Out.num e.2, Out.str "\n"]

/-- The function `showNoteSummary`. -/
def showNoteSummary (s : State) : Except Fault (State × List Out) :=
  match summaryFrom s.heap s.g_notes 0 with
  | Except.error e => Except.error e
  | Except.ok es => Except.ok (s, Out.str "\nNote Summary:\n" :: (es.map summaryLine).flatten)

/-- The loop of `clearAllNotes`: every non-null entry is deleted. -/
def freeAll : List (Option Nat) → List Obj → Except Fault (List Obj)
  | [], heap => Except.ok heap
  | none :: ps, heap => freeAll ps heap
  | some p :: ps, heap =>
    match deref heap p with
    | none => Except.error Fault.useAfterFree
    | some _ => freeAll ps (heap.set p Obj.freed)

/-- The function `clearAllNotes`. -/
def clearAllNotes (s : State) : Except Fault (State × List Out) :=
  match freeAll s.g_notes s.heap with
  | Except.error e => Except.error e
  | Except.ok heap =>
    Except.ok
      ({ s with heap := heap, g_notes := [] },
       [Out.log "Cleared all notes" none, Out.str "All notes cleared.\n"])

/-- A menu choice of `main` together with the input the chosen function reads. -/
inductive Op where
  | addNote (len : Nat) (input : List Nat)
  | viewNote (idx : Nat)
  | deleteNote (idx : Nat)
  | viewDeletedNote (idx : Nat)
  | showSafeStats
  | showNoteSummary
  | clearAllNotes
deriving DecidableEq, Repr

/-- The `switch` of `main`: the function a choice calls. -/
def step (s : State) : Op → Except Fault (State × List Out)
  | Op.addNote len input => addNote s len input
  | Op.viewNote idx => viewNote s idx
  | Op.deleteNote idx => deleteNote s idx
  | Op.viewDeletedNote idx => viewDeletedNote s idx
  | Op.showSafeStats => showSafeStats s
  | Op.showNoteSummary => showNoteSummary s
  | Op.clearAllNotes => clearAllNotes s

/-- The loop of `main` over a finite sequence of choices: the state reached. -/
def run (s : State) : List Op → Except Fault State
  | [] => Except.ok s
  | op :: ops =>
    match step s op with
    | Except.error e => Except.error e
    | Except.ok (s', _) => run s' ops

/-- The bytes written by `cout.write` among the printed items. -/
def rawBytes : List Out → List Cell
  | [] => []
  | Out.raw bs :: os => bs ++ rawBytes os
  | _ :: os => rawBytes os

/-- The statistic `active_count`: the number of non-null entries of `g_notes`. -/
def activeCount (s : State) : Nat := (s.g_notes.filter Option.isSome).length

/-- The choices that create or only read: addNote with a length below 2^31,
viewNote, showSafeStats and showNoteSummary. -/
def Op.createsOrReads : Op → Bool
  | Op.addNote len _ => decide (len < 2147483648)
  | Op.viewNote _ => true
  | Op.showSafeStats => true
  | Op.showNoteSummary => true
  | _ => false

/-- Every non-null entry of a pointer list refers to an allocated note whose
buffer holds at least len bytes. -/
def Readable (heap : List Obj) (g : List (Option Nat)) : Prop :=
  ∀ p, some p ∈ g → ∃ n, deref heap p = some n ∧ n.len ≤ n.buf.length

/-- The state relation kept by creating and reading: the entries of g_notes are
readable, total_alloc is twice the byte total that the loop of showSafeStats
computes, and total_freed is 0. -/
def AllocInv (s : State) : Prop :=
  Readable s.heap s.g_notes ∧
  (∃ count bytes, activeStats s.heap s.g_notes (0, 0) = Except.ok (count, bytes) ∧
    s.secureStats.total_alloc = 2 * bytes) ∧
  s.secureStats.total_freed = 0

/-- The note behind slot `i`: `some n` when the slot holds a live note `n`,
`none` for a tombstone and for an index beyond the slots. -/
def slotNote (s : State) (i : Nat) : Option Note :=
  match s.g_notes[i]? with
  | some (some p) => deref s.heap p
  | _ => none

/-- Every non-null entry of a pointer list refers to an allocated note. -/
def Live (heap : List Obj) (g : List (Option Nat)) : Prop :=
  ∀ p, some p ∈ g → ∃ n, deref heap p = some n

/-- No two entries of a pointer list hold the same address. -/
def Distinct (g : List (Option Nat)) : Prop :=
  ∀ (i j p : Nat), g[i]? = some (some p) → g[j]? = some (some p) → i = j

/-- The ownership relation of the store: every non-null slot refers to an
allocated note, and to one of its own. -/
def WF (s : State) : Prop := Live s.heap s.g_notes ∧ Distinct s.g_notes

/-- The states the program reaches from its start by a sequence of choices. -/
def Reachable (s : State) : Prop := ∃ ops, run init ops = Except.ok s

/-- The loop of `main` over a finite sequence of choices, keeping after every
call the state it left and what it printed. -/
def runTrace (s : State) : List Op → Except Fault (List (State × List Out))
  | [] => Except.ok []
  | op :: ops =>
    match step s op with
    | Except.error e => Except.error e
    | Except.ok (s1, o1) =>
      match runTrace s1 ops with
      | Except.error e => Except.error e
      | Except.ok t => Except.ok ((s1, o1) :: t)

/-- The index a call reported: the number printed after "Note added at index ". -/
def reportedIndex : List Out → Option Nat
  | [] => none
  | Out.str t :: Out.num k :: os =>
    if t = "Note added at index " then some k else reportedIndex (Out.num k :: os)
  | _ :: os => reportedIndex os

/-- The choices whose requested length, if they have one, is below 2^31. -/
def Op.lenBelow : Op → Bool
  | Op.addNote len _ => decide (len < 2147483648)
  | _ => true

/-- The shape of a note made by addNote with a length below 2^31: a buffer of
2 * len cells that starts with the bytes `C` read from the input, at most len
of them, and is uninitialised after them. -/
def NoteShape (n : Note) : Prop :=
  ∃ C : List Nat, C.length ≤ n.len ∧
    n.buf = C.map some ++ List.replicate (2 * n.len - C.length) none

/-- The statistic `active_bytes` in the words of the specification: the sum of
len over the live notes of the slots. -/
def activeBytes (s : State) : Nat :=
  ((s.g_notes.filterMap (fun x => x.bind (deref s.heap))).map Note.len).sum

/-- An example store: the one note of length 1 made by addNote from the byte 7. -/
def storeOne : State :=
  ⟨[Obj.live ⟨1, [some 7, none]⟩], [some 0], ⟨1, 0, 2, 0⟩, SIZE_MAX⟩

/-- An example store: `storeOne` after a second addNote of length 1 from the byte 8. -/
def storeTwo : State :=
  ⟨[Obj.live ⟨1, [some 7, none]⟩, Obj.live ⟨1, [some 8, none]⟩], [some 0, some 1],
    ⟨2, 0, 4, 0⟩, SIZE_MAX⟩

/-- The relation between an earlier point `a` and a later point `b` of a run
(state left and items printed) when slots are permanent: the slot count has not
decreased, every tombstone of `a` is a tombstone of `b`, and an index reported
at `a` is below an index reported at `b`. -/
def SlotsKept (a b : State × List Out) : Prop :=
  a.1.g_notes.length ≤ b.1.g_notes.length ∧
  (∀ i : Nat, a.1.g_notes[i]? = some none → b.1.g_notes[i]? = some none) ∧
  (∀ i j : Nat, reportedIndex a.2 = some i → reportedIndex b.2 = some j → i < j)

/-- Every allocated note of a heap has the shape of a note made with a length
below 2^31. -/
def ShapeInv (heap : List Obj) : Prop := ∀ n, Obj.live n ∈ heap → NoteShape n

/-- The constant `FIXED` of `processBuffer`, the size of its temporary buffer. -/
abbrev FIXED : Nat := 64

/-- The call `memcpy(dst, src, n)` into a `char` array `dst`: it writes the first
`n` bytes of `src` over the first `n` cells, which is a write past the array
when the array has fewer than `n` cells. -/
def memcpy (dst : List Cell) (src : List Nat) (n : Nat) : Except Fault (List Cell) :=
  if dst.length < n then Except.error Fault.heapOverflow
  else Except.ok ((src.take n).map some ++ dst.drop n)

/-- Writing a `char` array with `cout <<`: the bytes before the first NUL. The
read leaves the array when no cell holds a NUL, and it depends on indeterminate
values when it meets an uninitialised cell first. -/
def cString : List Cell → Except Fault (List Nat)
  | [] => Except.error Fault.outOfBoundsRead
  | none :: _ => Except.error Fault.uninitialisedRead
  | some 0 :: _ => Except.ok []
  | some (b + 1) :: cs =>
    match cString cs with
    | Except.error e => Except.error e
    | Except.ok bs => Except.ok ((b + 1) :: bs)

/-- The buffer `tmp` of `processBuffer` after its `memcpy` of the line `line`
that `std::getline` read: `line.size()` bytes are copied into `new char[FIXED]`. -/
def processBufferCopy (line : List Nat) : Except Fault (List Cell) :=
  memcpy (List.replicate FIXED none) line line.length

/-- The function `processBuffer`, for the line `line` read by `std::getline`. -/
def processBuffer (s : State) (line : List Nat) : Except Fault (State × List Out) :=
  match processBufferCopy line with
  | Except.error e => Except.error e
  | Except.ok tmp =>
    match cString tmp with
    | Except.error e => Except.error e
    | Except.ok bs =>
      Except.ok
        (s, [Out.str "Enter data to process (any length):\n",
             Out.str "Data processed: ", Out.raw (bs.map some), Out.str "\n"])

end Notes

/-!
# The library catalogue of library.c

A shallow embedding of the book and member functions of `src/library.c`
(`initialize_library`, `add_book`, `find_book_by_isbn`, `create_member`,
`find_member_by_id`, `find_member_by_email`, `cancel_membership`, `borrow_book`,
`return_book`, `purchase_book`, `record_transaction`, `add_to_waiting_list`,
`process_waiting_list`, `get_borrow_limit`, `get_genre_string`,
`get_genre_from_string`).

Modelling decisions.

* The global `library` is a value of `Library`; a function takes it and returns
  the new value together with its `int` result. The arrays `books` and
  `members` are the lists of their first `book_count` and `member_count`
  entries.
* A C string is a `String` of that many characters. `strcpy` into a `char`
  array that is too short for the string and its NUL is the result
  `Except.error Fault.bufferOverflow`.
* `int` and `time_t` are `Int`. What `get_current_time`, `mktime` and `scanf`
  deliver is an argument of the function that asks for it.
* Of the `double` values only `outstanding_fees` is kept, as a rational,
  because `borrow_book` and `cancel_membership` branch on it; the late fee that
  `return_book` computes with `pow` is an argument. Membership fees, the
  revenue total and the contents of the transaction log are written but never
  read by these functions and are left out, as is everything printed.
* `process_waiting_list` prints a field of the entry it has just freed; the
  model lets the call continue.
-/

namespace Lib

abbrev MAX_TITLE_LENGTH : Nat := 200
abbrev MAX_AUTHOR_LENGTH : Nat := 100
abbrev MAX_NAME_LENGTH : Nat := 100
abbrev MAX_EMAIL_LENGTH : Nat := 100
abbrev MAX_PHONE_LENGTH : Nat := 20
abbrev MAX_GENRE_LENGTH : Nat := 50
abbrev MAX_ISBN_LENGTH : Nat := 20
abbrev MAX_BOOKS : Nat := 10000
abbrev MAX_MEMBERS : Nat := 5000
abbrev MAX_TRANSACTIONS : Int := 50000
abbrev MAX_BORROWED_BOOKS : Nat := 20
abbrev BASIC_BORROW_LIMIT : Int := 3
abbrev PREMIUM_BORROW_LIMIT : Int := 7
abbrev VIP_BORROW_LIMIT : Int := 15

/-- The enumeration `MembershipType`. -/
inductive MembershipType where
  | MEMBERSHIP_BASIC
  | MEMBERSHIP_PREMIUM
  | MEMBERSHIP_VIP
deriving DecidableEq, Repr

/-- The enumeration `BookStatus`. -/
inductive BookStatus where
  | BOOK_AVAILABLE
  | BOOK_BORROWED
  | BOOK_RESERVED
  | BOOK_MAINTENANCE
  | BOOK_SOLD
deriving DecidableEq, Repr

/-- The enumeration `GenreType`. -/
inductive GenreType where
  | GENRE_FICTION
  | GENRE_NONFICTION
  | GENRE_MYSTERY
  | GENRE_ROMANCE
  | GENRE_SCIFI
  | GENRE_FANTASY
  | GENRE_BIOGRAPHY
  | GENRE_HISTORY
  | GENRE_SCIENCE
  | GENRE_TECHNOLOGY
  | GENRE_SELF_HELP
  | GENRE_OTHER
deriving DecidableEq, Repr

/-- Undefined behaviour that a call can run into. -/
inductive Fault where
  | bufferOverflow
  | indexOutOfBounds
deriving DecidableEq, Repr

/-- The `struct WaitingListEntry`; `next` is the rest of the list that holds it. -/
structure WaitingListEntry where
  member_id : Int
  request_date : Int
deriving DecidableEq, Repr

/-- The `struct Book`. -/
structure Book where
  isbn : String
  title : String
  author : String
  genre : GenreType
  publication_year : Int
  status : BookStatus
  purchase_price : Rat
  rental_price : Rat
  total_copies : Int
  available_copies : Int
  times_borrowed : Int
  times_purchased : Int
  date_added : Int
  current_borrower_id : Int
  due_date : Int
  waiting_list : List WaitingListEntry
  waiting_count : Int
deriving DecidableEq, Repr

/-- The `struct Member`, without `membership_fee_paid`. -/
structure Member where
  member_id : Int
  name : String
  email : String
  phone : String
  membership_type : MembershipType
  registration_date : Int
  last_activity : Int
  borrowed_books : List Int
  num_borrowed : Int
  outstanding_fees : Rat
  books_purchased : Int
  books_borrowed_total : Int
  is_active : Int
  membership_expiry : Int
deriving DecidableEq, Repr

/-- The `struct Library`: `books` and `members` are the used parts of the
arrays, so `book_count` and `member_count` are their lengths. -/
structure Library where
  books : List Book
  members : List Member
  transaction_count : Int
  next_member_id : Int
  next_transaction_id : Int
  total_books_circulated : Int
deriving DecidableEq, Repr

/-- The index of the first entry of a list that satisfies `p`, as the loops of
the `find_` functions compute it. -/
def firstIndex {α : Type} (p : α → Bool) : List α → Option Nat
  | [] => none
  | a :: as => if p a then some 0 else (firstIndex p as).map (fun i => i + 1)

/-- The function `find_book_by_isbn`: the index of the book it returns a pointer to. -/
def find_book_by_isbn (lib : Library) (isbn : String) : Option Nat :=
  firstIndex (fun b => b.isbn == isbn) lib.books

/-- The function `find_member_by_id`. -/
def find_member_by_id (lib : Library) (member_id : Int) : Option Nat :=
  firstIndex (fun m => m.member_id == member_id && m.is_active != 0) lib.members

/-- The function `find_member_by_email`. -/
def find_member_by_email (lib : Library) (email : String) : Option Nat :=
  firstIndex (fun m => m.email == email && m.is_active != 0) lib.members

/-- The function `get_borrow_limit`. -/
def get_borrow_limit : MembershipType → Int
  | MembershipType.MEMBERSHIP_BASIC => BASIC_BORROW_LIMIT
  | MembershipType.MEMBERSHIP_PREMIUM => PREMIUM_BORROW_LIMIT
  | MembershipType.MEMBERSHIP_VIP => VIP_BORROW_LIMIT

/-- The function `record_transaction`, as far as the counters of the log go. -/
def record_transaction (lib : Library) : Library :=
  if MAX_TRANSACTIONS ≤ lib.transaction_count then lib
  else
    { lib with
      transaction_count := lib.transaction_count + 1
      next_transaction_id := lib.next_transaction_id + 1 }

/-- The function `add_book`; `now` is what `get_current_time` returns. -/
def add_book (lib : Library) (isbn title author : String) (genre : GenreType) (year : Int)
    (purchase_price rental_price : Rat) (copies : Int) (now : Int) :
    Except Fault (Library × Int) :=
  if MAX_BOOKS ≤ lib.books.length then Except.ok (lib, 0)
  else if (find_book_by_isbn lib isbn).isSome then Except.ok (lib, 0)
  else if MAX_ISBN_LENGTH ≤ isbn.length ∨ MAX_TITLE_LENGTH ≤ title.length ∨
      MAX_AUTHOR_LENGTH ≤ author.length then Except.error Fault.bufferOverflow
  else
    let book : Book :=
      { isbn := isbn, title := title, author := author, genre := genre,
        publication_year := year, status := BookStatus.BOOK_AVAILABLE,
        purchase_price := purchase_price, rental_price := rental_price,
        total_copies := copies, available_copies := copies,
        times_borrowed := 0, times_purchased := 0, date_added := now,
        current_borrower_id := 0, due_date := 0, waiting_list := [], waiting_count := 0 }
    Except.ok ({ lib with books := lib.books ++ [book] }, 1)

/-- One of the calls of `add_book` in `initialize_library`, whose result is
not looked at. -/
def thenAddBook (r : Except Fault Library) (isbn title author : String) (genre : GenreType)
    (year : Int) (purchase_price rental_price : Rat) (copies : Int) (now : Int) :
    Except Fault Library :=
  match r with
  | Except.error e => Except.error e
  | Except.ok lib =>
    match add_book lib isbn title author genre year purchase_price rental_price copies now with
    | Except.error e => Except.error e
    | Except.ok (lib1, _) => Except.ok lib1

/-- The library after the `memset` and the assignments of `initialize_library`. -/
def emptyLibrary : Library :=
  { books := [], members := [], transaction_count := 0, next_member_id := 1001,
    next_transaction_id := 1, total_books_circulated := 0 }

/-- The function `initialize_library`. -/
def initialize_library (now : Int) : Except Fault Library :=
  thenAddBook
    (thenAddBook
      (thenAddBook
        (thenAddBook
          (thenAddBook (Except.ok emptyLibrary)
            "978-0-123456-78-9" "The Great Gatsby" "F. Scott Fitzgerald"
            GenreType.GENRE_FICTION 1925 15.99 2.50 5 now)
          "978-0-987654-32-1" "To Kill a Mockingbird" "Harper Lee"
          GenreType.GENRE_FICTION 1960 12.99 2.00 3 now)
        "978-1-234567-89-0" "1984" "George Orwell"
        GenreType.GENRE_FICTION 1949 13.99 2.25 4 now)
      "978-0-555555-55-5" "A Brief History of Time" "Stephen Hawking"
      GenreType.GENRE_SCIENCE 1988 18.99 3.00 2 now)
    "978-0-111111-11-1" "The Art of Computer Programming" "Donald Knuth"
    GenreType.GENRE_TECHNOLOGY 1968 89.99 5.00 1 now

/-- The function `create_member`; `now` is what `get_current_time` returns and
`expiry` what `mktime` returns for the date one year later. -/
def create_member (lib : Library) (name email phone : String) (type : MembershipType)
    (now expiry : Int) : Except Fault (Library × Int) :=
  if MAX_MEMBERS ≤ lib.members.length then Except.ok (lib, 0)
  else if (find_member_by_email lib email).isSome then Except.ok (lib, 0)
  else if MAX_NAME_LENGTH ≤ name.length ∨ MAX_EMAIL_LENGTH ≤ email.length ∨
      MAX_PHONE_LENGTH ≤ phone.length then Except.error Fault.bufferOverflow
  else
    let member : Member :=
      { member_id := lib.next_member_id, name := name, email := email, phone := phone,
        membership_type := type, registration_date := now, last_activity := now,
        borrowed_books := List.replicate MAX_BORROWED_BOOKS 0, num_borrowed := 0,
        outstanding_fees := 0, books_purchased := 0, books_borrowed_total := 0,
        is_active := 1, membership_expiry := expiry }
    Except.ok
      (record_transaction
        { lib with members := lib.members ++ [member], next_member_id := lib.next_member_id + 1 },
       member.member_id)

/-- The function `cancel_membership`. -/
def cancel_membership (lib : Library) (member_id : Int) : Except Fault (Library × Int) :=
  match find_member_by_id lib member_id with
  | none => Except.ok (lib, 0)
  | some mi =>
    match lib.members[mi]? with
    | none => Except.error Fault.indexOutOfBounds
    | some member =>
      if 0 < member.num_borrowed then Except.ok (lib, 0)
      else if 0 < member.outstanding_fees then Except.ok (lib, 0)
      else
        Except.ok
          (record_transaction
            { lib with members := lib.members.set mi { member with is_active := 0 } }, 1)

/-- The function `add_to_waiting_list`; `now` is what `get_current_time` returns. -/
def add_to_waiting_list (lib : Library) (isbn : String) (member_id : Int) (now : Int) :
    Library :=
  match find_book_by_isbn lib isbn with
  | none => lib
  | some bi =>
    match lib.books[bi]? with
    | none => lib
    | some book =>
      if book.waiting_list.any (fun e => e.member_id == member_id) then lib
      else
        record_transaction
          { lib with
            books := lib.books.set bi
              { book with
                waiting_list := ⟨member_id, now⟩ :: book.waiting_list
                waiting_count := book.waiting_count + 1 } }

/-- The function `process_waiting_list`. -/
def process_waiting_list (lib : Library) (isbn : String) : Library :=
  match find_book_by_isbn lib isbn with
  | none => lib
  | some bi =>
    match lib.books[bi]? with
    | none => lib
    | some book =>
      if book.waiting_count = 0 then lib
      else
        match book.waiting_list with
        | [] => lib
        | _ :: rest =>
          { lib with
            books := lib.books.set bi
              { book with waiting_list := rest, waiting_count := book.waiting_count - 1 } }

/-- The function `borrow_book`; `now` is what `get_current_time` returns, `due`
what `mktime` returns for the due date, and `join` whether the answer read by
`scanf` is y or Y. -/
def borrow_book (lib : Library) (member_id : Int) (isbn : String) (now due : Int)
    (join : Bool) : Except Fault (Library × Int) :=
  match find_member_by_id lib member_id with
  | none => Except.ok (lib, 0)
  | some mi =>
    match lib.members[mi]? with
    | none => Except.error Fault.indexOutOfBounds
    | some member =>
      if member.membership_expiry < now then Except.ok (lib, 0)
      else if 50 < member.outstanding_fees then Except.ok (lib, 0)
      else
        match find_book_by_isbn lib isbn with
        | none => Except.ok (lib, 0)
        | some bi =>
          match lib.books[bi]? with
          | none => Except.error Fault.indexOutOfBounds
          | some book =>
            if book.available_copies ≤ 0 then
              Except.ok (if join then add_to_waiting_list lib isbn member_id now else lib, 1)
            else if get_borrow_limit member.membership_type ≤ member.num_borrowed then
              Except.ok (lib, 0)
            else if lib.books.any
                (fun b => b.isbn == isbn && b.current_borrower_id == member_id) then
              Except.ok (lib, 0)
            else if member.num_borrowed < 0 ∨
                (MAX_BORROWED_BOOKS : Int) ≤ member.num_borrowed then
              Except.error Fault.indexOutOfBounds
            else
              let book1 : Book :=
                { book with
                  available_copies := book.available_copies - 1
                  current_borrower_id := member_id
                  times_borrowed := book.times_borrowed + 1
                  status :=
                    if 0 < book.available_copies - 1 then BookStatus.BOOK_AVAILABLE
                    else BookStatus.BOOK_BORROWED
                  due_date := due }
              let member1 : Member :=
                { member with
                  borrowed_books :=
                    member.borrowed_books.set member.num_borrowed.toNat lib.books.length
                  num_borrowed := member.num_borrowed + 1
                  books_borrowed_total := member.books_borrowed_total + 1
                  last_activity := now }
              Except.ok
                (record_transaction
                  { lib with
                    books := lib.books.set bi book1
                    members := lib.members.set mi member1
                    total_books_circulated := lib.total_books_circulated + 1 }, 1)

/-- The outer loop of `return_book` over `borrowed_books`: the first index below
`num_borrowed` whose entry is not negative; `i` is the index of the head of the
list and `k` the number of entries still to look at. -/
def firstBorrowed : List Int → Nat → Nat → Except Fault (Option Nat)
  | _, _, 0 => Except.ok none
  | [], _, _ + 1 => Except.error Fault.indexOutOfBounds
  | x :: xs, i, k + 1 => if 0 ≤ x then Except.ok (some i) else firstBorrowed xs (i + 1) k

/-- The innermost loop of `return_book`: the entries `i + 1` to `n - 1` move one
place down. -/
def shiftBorrowed (bb : List Int) (i n : Nat) : List Int :=
  bb.take i ++ (bb.drop (i + 1)).take (n - 1 - i) ++ bb.drop (n - 1)

/-- The update of the member record in `return_book`. -/
def removeBorrowed (lib : Library) (member : Member) (isbn : String) : Except Fault Member :=
  match firstBorrowed member.borrowed_books 0 member.num_borrowed.toNat with
  | Except.error e => Except.error e
  | Except.ok none => Except.ok member
  | Except.ok (some i) =>
    if lib.books.any (fun b => b.isbn == isbn) then
      Except.ok
        { member with
          borrowed_books := shiftBorrowed member.borrowed_books i member.num_borrowed.toNat
          num_borrowed := member.num_borrowed - 1 }
    else Except.ok member

/-- The part of `return_book` after the late fee: the book is given back, the
member record is updated, the return is logged and the waiting list is
processed. -/
def finishReturn (lib : Library) (mi bi : Nat) (book : Book) (member : Member)
    (isbn : String) (now : Int) : Except Fault (Library × Int) :=
  let book1 : Book :=
    { book with
      available_copies := book.available_copies + 1
      current_borrower_id := 0
      due_date := 0
      status := BookStatus.BOOK_AVAILABLE }
  let lib1 : Library := { lib with books := lib.books.set bi book1 }
  match removeBorrowed lib1 member isbn with
  | Except.error e => Except.error e
  | Except.ok member1 =>
    Except.ok
      (process_waiting_list
        (record_transaction
          { lib1 with members := lib1.members.set mi { member1 with last_activity := now } })
        isbn, 1)

/-- The function `return_book`; `now` is what `get_current_time` returns and
`late_fee` what `calculate_late_fee` returns when the book is overdue. -/
def return_book (lib : Library) (member_id : Int) (isbn : String) (now : Int)
    (late_fee : Rat) : Except Fault (Library × Int) :=
  match find_member_by_id lib member_id with
  | none => Except.ok (lib, 0)
  | some mi =>
    match lib.members[mi]? with
    | none => Except.error Fault.indexOutOfBounds
    | some member =>
      match find_book_by_isbn lib isbn with
      | none => Except.ok (lib, 0)
      | some bi =>
        match lib.books[bi]? with
        | none => Except.error Fault.indexOutOfBounds
        | some book =>
          if book.current_borrower_id ≠ member_id then Except.ok (lib, 0)
          else if book.due_date < now then
            finishReturn (record_transaction lib) mi bi book
              { member with outstanding_fees := member.outstanding_fees + late_fee } isbn now
          else finishReturn lib mi bi book member isbn now

/-- The function `purchase_book`; `now` is what `get_current_time` returns and
`confirm` whether the answer read by `scanf` is y or Y. -/
def purchase_book (lib : Library) (member_id : Int) (isbn : String) (now : Int)
    (confirm : Bool) : Except Fault (Library × Int) :=
  match find_member_by_id lib member_id with
  | none => Except.ok (lib, 0)
  | some mi =>
    match lib.members[mi]? with
    | none => Except.error Fault.indexOutOfBounds
    | some member =>
      match find_book_by_isbn lib isbn with
      | none => Except.ok (lib, 0)
      | some bi =>
        match lib.books[bi]? with
        | none => Except.error Fault.indexOutOfBounds
        | some book =>
          if book.total_copies ≤ 0 then Except.ok (lib, 0)
          else if !confirm then Except.ok (lib, 0)
          else
            Except.ok
              (record_transaction
                { lib with
                  books := lib.books.set bi
                    { book with times_purchased := book.times_purchased + 1 }
                  members := lib.members.set mi
                    { member with
                      books_purchased := member.books_purchased + 1
                      last_activity := now } }, 1)

/-- A call of one of the functions that change books or members, with its
arguments. -/
inductive Call where
  | add_book (isbn title author : String) (genre : GenreType) (year : Int)
      (purchase_price rental_price : Rat) (copies : Int) (now : Int)
  | create_member (name email phone : String) (type : MembershipType) (now expiry : Int)
  | cancel_membership (member_id : Int)
  | borrow_book (member_id : Int) (isbn : String) (now due : Int) (join : Bool)
  | return_book (member_id : Int) (isbn : String) (now : Int) (late_fee : Rat)
  | purchase_book (member_id : Int) (isbn : String) (now : Int) (confirm : Bool)

/-- The function a call stands for, applied to the library. -/
def call (lib : Library) : Call → Except Fault (Library × Int)
  | Call.add_book isbn title author genre year pp rp copies now =>
    add_book lib isbn title author genre year pp rp copies now
  | Call.create_member name email phone type now expiry =>
    create_member lib name email phone type now expiry
  | Call.cancel_membership member_id => cancel_membership lib member_id
  | Call.borrow_book member_id isbn now due join => borrow_book lib member_id isbn now due join
  | Call.return_book member_id isbn now late_fee => return_book lib member_id isbn now late_fee
  | Call.purchase_book member_id isbn now confirm => purchase_book lib member_id isbn now confirm

/-- A finite sequence of calls, one after the other: the library they leave. -/
def runCalls (lib : Library) : List Call → Except Fault Library
  | [] => Except.ok lib
  | c :: cs =>
    match call lib c with
    | Except.error e => Except.error e
    | Except.ok (lib1, _) => runCalls lib1 cs

/-- The libraries reached from `initialize_library` by a sequence of calls. -/
def Reachable (lib : Library) : Prop :=
  ∃ now lib0 cs, initialize_library now = Except.ok lib0 ∧ runCalls lib0 cs = Except.ok lib

/-- The function `get_genre_string`. -/
def get_genre_string : GenreType → String
  | GenreType.GENRE_FICTION => "Fiction"
  | GenreType.GENRE_NONFICTION => "Non-Fiction"
  | GenreType.GENRE_MYSTERY => "Mystery"
  | GenreType.GENRE_ROMANCE => "Romance"
  | GenreType.GENRE_SCIFI => "Science Fiction"
  | GenreType.GENRE_FANTASY => "Fantasy"
  | GenreType.GENRE_BIOGRAPHY => "Biography"
  | GenreType.GENRE_HISTORY => "History"
  | GenreType.GENRE_SCIENCE => "Science"
  | GenreType.GENRE_TECHNOLOGY => "Technology"
  | GenreType.GENRE_SELF_HELP => "Self Help"
  | GenreType.GENRE_OTHER => "Other"

/-- The function `toupper` of the C locale on one character. -/
def toupper (c : Char) : Char :=
  if 'a' ≤ c ∧ c ≤ 'z' then Char.ofNat (c.toNat - 32) else c

/-- The function `to_uppercase`. -/
def to_uppercase (s : List Char) : List Char := s.map toupper

/-- Whether `needle` is the beginning of `hay`. -/
def startsWith : List Char → List Char → Bool
  | _, [] => true
  | [], _ :: _ => false
  | h :: hs, n :: ns => h == n && startsWith hs ns

/-- The function `strstr` as a test: whether `needle` occurs in `hay`. -/
def strstr : List Char → String → Bool
  | [], needle => startsWith [] needle.toList
  | h :: hs, needle => startsWith (h :: hs) needle.toList || strstr hs needle

/-- The function `get_genre_from_string`. -/
def get_genre_from_string (genre_str : String) : Except Fault GenreType :=
  if MAX_GENRE_LENGTH ≤ genre_str.length then Except.error Fault.bufferOverflow
  else
    let upper_genre := to_uppercase genre_str.toList
    if strstr upper_genre "FICTION" && !strstr upper_genre "NON" then
      Except.ok GenreType.GENRE_FICTION
    else if strstr upper_genre "NON-FICTION" || strstr upper_genre "NONFICTION" then
      Except.ok GenreType.GENRE_NONFICTION
    else if strstr upper_genre "MYSTERY" then Except.ok GenreType.GENRE_MYSTERY
    else if strstr upper_genre "ROMANCE" then Except.ok GenreType.GENRE_ROMANCE
    else if strstr upper_genre "SCIENCE FICTION" || strstr upper_genre "SCI-FI" then
      Except.ok GenreType.GENRE_SCIFI
    else if strstr upper_genre "FANTASY" then Except.ok GenreType.GENRE_FANTASY
    else if strstr upper_genre "BIOGRAPHY" then Except.ok GenreType.GENRE_BIOGRAPHY
    else if strstr upper_genre "HISTORY" then Except.ok GenreType.GENRE_HISTORY
    else if strstr upper_genre "SCIENCE" then Except.ok GenreType.GENRE_SCIENCE
    else if strstr upper_genre "TECHNOLOGY" || strstr upper_genre "TECH" then
      Except.ok GenreType.GENRE_TECHNOLOGY
    else if strstr upper_genre "SELF HELP" || strstr upper_genre "SELF-HELP" then
      Except.ok GenreType.GENRE_SELF_HELP
    else Except.ok GenreType.GENRE_OTHER

/-- The number of books whose `current_borrower_id` is `member_id`. -/
def borrowedCount (lib : Library) (member_id : Int) : Nat :=
  (lib.books.filter (fun b => b.current_borrower_id == member_id)).length

/-- The books of the library have pairwise distinct ISBNs. -/
def DistinctIsbn (lib : Library) : Prop :=
  lib.books.Pairwise (fun a b => a.isbn ≠ b.isbn)

/-- What C28 states of a member: `num_borrowed` is not negative, not above the
borrow limit of the membership type, and that limit is not above
`MAX_BORROWED_BOOKS`. -/
def WithinLimit (m : Member) : Prop :=
  0 ≤ m.num_borrowed ∧ m.num_borrowed ≤ get_borrow_limit m.membership_type ∧
  get_borrow_limit m.membership_type ≤ (MAX_BORROWED_BOOKS : Int)

/-- How a member record `m1` of the library after a call relates to the members
before it: it is one of them, or it is new with nothing borrowed, or it is one of
them with the same membership type and with `num_borrowed` unchanged, raised by
one from below the borrow limit, or lowered by one from above zero. -/
def MemberStep (before : List Member) (m1 : Member) : Prop :=
  m1 ∈ before ∨ m1.num_borrowed = 0 ∨
  ∃ m ∈ before, m1.membership_type = m.membership_type ∧
    (m1.num_borrowed = m.num_borrowed ∨
     (m1.num_borrowed = m.num_borrowed + 1 ∧
       m.num_borrowed < get_borrow_limit m.membership_type) ∨
     (m1.num_borrowed = m.num_borrowed - 1 ∧ 0 < m.num_borrowed))

end Lib

namespace Notes

/-! ## The functions as equations -/

theorem addNote_eq (s : State) (len : Nat) (input : List Nat) :
    addNote s len input =
      if (len * 2) % UINT32_MOD < (input.take len).length then Except.error Fault.heapOverflow
      else Except.ok
        ({ heap := s.heap ++ [Obj.live ⟨len, (input.take len).map some ++
              List.replicate ((len * 2) % UINT32_MOD - (input.take len).length) none⟩],
           g_notes := s.g_notes ++ [some s.heap.length],
           secureStats := ⟨s.secureStats.notes_created + 1, s.secureStats.notes_deleted,
              s.secureStats.total_alloc + (len * 2) % UINT32_MOD, s.secureStats.total_freed⟩,
           cachedIdx := s.cachedIdx },
         [Out.str "Enter note length: ",
          Out.str "Enter note content (", Out.num len, Out.str " bytes expected):\n",
          Out.log "Added note of length " (some len),
          Out.str "Note added at index ", Out.num s.g_notes.length, Out.str "\n"]) := by
  unfold addNote
  simp only [List.drop_replicate, List.length_append, List.length_singleton, Nat.add_sub_cancel]

theorem safeIndex_live (s : State) (i p : Nat) (h : s.g_notes[i]? = some (some p)) :
    safeIndex s i = true ∧ s.g_notes.getD i none = some p := by
  have hi : i < s.g_notes.length := by
    rcases Nat.lt_or_ge i s.g_notes.length with h1 | h1
    · exact h1
    · rw [List.getElem?_eq_none h1] at h; cases h
  have hg : s.g_notes.getD i none = some p := by
    simp [List.getD_eq_getElem?_getD, h]
  refine ⟨?_, hg⟩
  unfold safeIndex
  rw [hg]
  simp [hi]

theorem safeIndex_tombstone (s : State) (i : Nat) (h : s.g_notes[i]? = some none) :
    safeIndex s i = false := by
  simp [safeIndex, List.getD_eq_getElem?_getD, h]

theorem safeIndex_out_of_range (s : State) (i : Nat) (h : s.g_notes.length ≤ i) :
    safeIndex s i = false := by
  simp [safeIndex, Nat.not_lt.mpr h]

theorem viewNote_invalid (s : State) (i : Nat) (h : safeIndex s i = false) :
    viewNote s i = Except.ok (s, promptIndex ++ [Out.str "Invalid index.\n"]) := by
  simp [viewNote, h]

theorem deleteNote_invalid (s : State) (i : Nat) (h : safeIndex s i = false) :
    deleteNote s i = Except.ok (s, promptIndex ++ [Out.str "Invalid index.\n"]) := by
  simp [deleteNote, h]

theorem viewNote_live (s : State) (i p : Nat) (n : Note)
    (h : s.g_notes[i]? = some (some p)) (hn : deref s.heap p = some n)
    (hb : n.len ≤ n.buf.length) :
    viewNote s i = Except.ok
      (s, promptIndex ++
        [Out.str "[Note ", Out.num i, Out.str "] (len=", Out.num n.len, Out.str "):\n",
         Out.raw (n.buf.take n.len), Out.str "\n"]) := by
  obtain ⟨h1, h2⟩ := safeIndex_live s i p h
  unfold viewNote
  rw [h1, h2]
  simp [hn, Nat.not_lt.mpr hb]

theorem deleteNote_live (s : State) (i p : Nat) (n : Note)
    (h : s.g_notes[i]? = some (some p)) (hn : deref s.heap p = some n) :
    deleteNote s i = Except.ok
      ({ heap := s.heap.set p Obj.freed, g_notes := s.g_notes.set i none,
         secureStats := ⟨s.secureStats.notes_created, s.secureStats.notes_deleted + 1,
            s.secureStats.total_alloc, s.secureStats.total_freed + 1⟩,
         cachedIdx := s.cachedIdx },
       promptIndex ++ [Out.log "Deleted note at index " (some i), Out.str "Note deleted.\n"]) := by
  obtain ⟨h1, h2⟩ := safeIndex_live s i p h
  unfold deleteNote
  rw [h1, h2]
  simp [hn]

theorem deref_append_new (heap : List Obj) (n : Note) :
    deref (heap ++ [Obj.live n]) heap.length = some n := by
  simp [deref]

theorem mul_two_mod_small (L : Nat) (h : L < 2147483648) : (L * 2) % UINT32_MOD = L * 2 := by
  apply Nat.mod_eq_of_lt
  show L * 2 < 4294967296
  omega

/-! ## Create followed by read -/

/-- C1, as stated, fails on the code. Creating a note with length 5 from the two
bytes 97, 98 and viewing it writes five bytes of which the last three are the
uninitialised rest of the buffer, not zero bytes; and with length 2^31 the
allocation has 0 bytes, so viewing the note reads past it. -/
theorem addNote_viewNote_not_zero_padded :
    (∃ s1 o1 o2, addNote init 5 [97, 98] = Except.ok (s1, o1) ∧
        viewNote s1 0 = Except.ok (s1, o2) ∧
        rawBytes o2 = [some 97, some 98, none, none, none] ∧
        rawBytes o2 ≠ [some 97, some 98, some 0, some 0, some 0]) ∧
    (∃ s1 o1, addNote init 2147483648 [] = Except.ok (s1, o1) ∧
        viewNote s1 0 = Except.error Fault.outOfBoundsRead) :=
  ⟨⟨_, _, _, rfl, rfl, rfl, by decide⟩, ⟨_, _, rfl, rfl⟩⟩

/-- C1, amended: for every requested length L below 2^31 and every content C
with at most L bytes, addNote reports the index of the new slot and viewNote on
that index writes exactly L bytes: the bytes of C followed by L - |C|
uninitialised bytes of the buffer. -/
theorem addNote_viewNote_roundtrip (s : State) (L : Nat) (C : List Nat)
    (hL : L < 2147483648) (hC : C.length ≤ L) :
    ∃ s1 o1 o2, addNote s L C = Except.ok (s1, o1) ∧
      [Out.str "Note added at index ", Out.num s.g_notes.length, Out.str "\n"] <:+ o1 ∧
      viewNote s1 s.g_notes.length = Except.ok (s1, o2) ∧
      rawBytes o2 = C.map some ++ List.replicate (L - C.length) none ∧
      (rawBytes o2).length = L := by
  have htake : C.take L = C := List.take_of_length_le hC
  have hmod := mul_two_mod_small L hL
  have hadd := addNote_eq s L C
  rw [htake, hmod, if_neg (by omega)] at hadd
  have hv := viewNote_live
    { heap := s.heap ++ [Obj.live ⟨L, C.map some ++ List.replicate (L * 2 - C.length) none⟩],
      g_notes := s.g_notes ++ [some s.heap.length],
      secureStats := ⟨s.secureStats.notes_created + 1, s.secureStats.notes_deleted,
        s.secureStats.total_alloc + L * 2, s.secureStats.total_freed⟩,
      cachedIdx := s.cachedIdx }
    s.g_notes.length s.heap.length
    ⟨L, C.map some ++ List.replicate (L * 2 - C.length) none⟩
    (by simp) (deref_append_new _ _) (by simp; omega)
  have hraw : (C.map some ++ List.replicate (L * 2 - C.length) (none : Cell)).take L =
      C.map some ++ List.replicate (L - C.length) none := by
    rw [List.take_append_eq_append_take, List.take_of_length_le (by simp; omega)]
    simp only [List.length_map, List.take_replicate]
    congr 2
    omega
  refine ⟨_, _, _, hadd,
    ⟨[Out.str "Enter note length: ", Out.str "Enter note content (", Out.num L,
      Out.str " bytes expected):\n", Out.log "Added note of length " (some L)], rfl⟩, hv, ?_, ?_⟩
  · simp only [promptIndex, rawBytes, List.cons_append, List.nil_append, List.append_nil]
    exact hraw
  · simp only [promptIndex, rawBytes, List.cons_append, List.nil_append, List.append_nil]
    rw [hraw]
    simp
    omega

/-- Witness of C1, amended: length 3 and the two bytes 104, 105 on top of the
initial state. -/
theorem addNote_viewNote_roundtrip_witness :
    ∃ s1 o1 o2, addNote init 3 [104, 105] = Except.ok (s1, o1) ∧
      [Out.str "Note added at index ", Out.num init.g_notes.length, Out.str "\n"] <:+ o1 ∧
      viewNote s1 init.g_notes.length = Except.ok (s1, o2) ∧
      rawBytes o2 = [104, 105].map some ++ List.replicate (3 - [104, 105].length) none ∧
      (rawBytes o2).length = 3 :=
  addNote_viewNote_roundtrip init 3 [104, 105] (by decide) (by decide)

/-! ## The size computation of addNote -/

/-- C2, on the code: addNote does not reject the length 4294967295. The size
computation wraps to 4294967294, a buffer of that size is allocated, the note
with len 4294967295 is appended at index 0, and notes_created and total_alloc
change. -/
theorem addNote_accepts_overflowing_length :
    addNote init 4294967295 [] =
      Except.ok
        ({ heap := [Obj.live ⟨4294967295, List.replicate 4294967294 none⟩],
           g_notes := [some 0],
           secureStats := ⟨1, 0, 4294967294, 0⟩,
           cachedIdx := SIZE_MAX },
         [Out.str "Enter note length: ",
          Out.str "Enter note content (", Out.num 4294967295, Out.str " bytes expected):\n",
          Out.log "Added note of length " (some 4294967295),
          Out.str "Note added at index ", Out.num 0, Out.str "\n"]) :=
  rfl

/-- C3, as stated, fails on the code: the note created with length 5 has len 5
and a buffer of 10 bytes. -/
theorem addNote_allocation_not_exact :
    ∃ s1 o1 n, addNote init 5 [97, 98] = Except.ok (s1, o1) ∧
      deref s1.heap 0 = some n ∧ n.len = 5 ∧ n.buf.length = 10 ∧ n.buf.length ≠ n.len :=
  ⟨_, _, _, rfl, rfl, rfl, rfl, by decide⟩

/-- C3, amended: for every requested length L below 2^31, addNote succeeds and
the note it appends has len L and a buffer of exactly 2 * L bytes. -/
theorem addNote_allocation_size (s : State) (L : Nat) (input : List Nat)
    (hL : L < 2147483648) :
    ∃ s1 o1 n, addNote s L input = Except.ok (s1, o1) ∧
      s1.g_notes.getLast? = some (some s.heap.length) ∧
      deref s1.heap s.heap.length = some n ∧ n.len = L ∧ n.buf.length = 2 * L := by
  have hmod := mul_two_mod_small L hL
  have hlen : (input.take L).length ≤ L := by simp
  have hadd := addNote_eq s L input
  rw [hmod, if_neg (by omega)] at hadd
  refine ⟨_, _, _, hadd, by simp, deref_append_new _ _, rfl, ?_⟩
  simp only [List.length_append, List.length_map, List.length_replicate]
  omega

/-- Witness of C3, amended: length 4 with one byte of input. -/
theorem addNote_allocation_size_witness :
    ∃ s1 o1 n, addNote init 4 [1] = Except.ok (s1, o1) ∧
      s1.g_notes.getLast? = some (some init.heap.length) ∧
      deref s1.heap init.heap.length = some n ∧ n.len = 4 ∧ n.buf.length = 2 * 4 :=
  addNote_allocation_size init 4 [1] (by decide)

/-! ## The balance of the byte counters -/

theorem safeIndex_true (s : State) (i : Nat) (h : safeIndex s i = true) :
    ∃ p, s.g_notes[i]? = some (some p) := by
  unfold safeIndex at h
  simp only [Bool.and_eq_true, decide_eq_true_eq] at h
  obtain ⟨hi, hs⟩ := h
  rw [List.getD_eq_getElem?_getD, List.getElem?_eq_getElem hi] at hs
  rw [List.getElem?_eq_getElem hi]
  cases hg : s.g_notes[i] with
  | none => rw [hg] at hs; simp at hs
  | some p => exact ⟨p, rfl⟩

theorem deref_append (heap l : List Obj) (p : Nat) (n : Note) (h : deref heap p = some n) :
    deref (heap ++ l) p = some n := by
  unfold deref at h ⊢
  have hp : p < heap.length := by
    rcases Nat.lt_or_ge p heap.length with h1 | h1
    · exact h1
    · rw [List.getElem?_eq_none h1] at h; cases h
  rw [List.getElem?_append_left hp]
  exact h

theorem activeStats_append_heap (heap l : List Obj) (g : List (Option Nat)) :
    ∀ (acc r : Nat × Nat), activeStats heap g acc = Except.ok r →
      activeStats (heap ++ l) g acc = Except.ok r := by
  induction g with
  | nil => intro acc r h; simpa [activeStats] using h
  | cons a g ih =>
    intro acc r h
    cases a with
    | none => simp only [activeStats] at h ⊢; exact ih acc r h
    | some p =>
      simp only [activeStats] at h ⊢
      cases hd : deref heap p with
      | none => rw [hd] at h; cases h
      | some n =>
        rw [hd] at h
        rw [deref_append heap l p n hd]
        exact ih _ r h

theorem activeStats_snoc (heap : List Obj) (g : List (Option Nat)) (p : Nat) (n : Note)
    (hp : deref heap p = some n) :
    ∀ (acc r : Nat × Nat), activeStats heap g acc = Except.ok r →
      activeStats heap (g ++ [some p]) acc = Except.ok (r.1 + 1, r.2 + n.len) := by
  induction g with
  | nil =>
    intro acc r h
    simp only [activeStats, Except.ok.injEq] at h
    subst h
    simp [activeStats, hp]
  | cons a g ih =>
    intro acc r h
    cases a with
    | none => simp only [activeStats, List.cons_append] at h ⊢; exact ih acc r h
    | some q =>
      simp only [activeStats, List.cons_append] at h ⊢
      cases hd : deref heap q with
      | none => rw [hd] at h; cases h
      | some m =>
        rw [hd] at h
        exact ih _ r h

theorem summaryFrom_ok (heap : List Obj) (g : List (Option Nat)) (h : Readable heap g) :
    ∀ i, ∃ es, summaryFrom heap g i = Except.ok es := by
  induction g with
  | nil => intro i; exact ⟨[], rfl⟩
  | cons a g ih =>
    have hg : Readable heap g := fun p hp => h p (List.mem_cons_of_mem _ hp)
    intro i
    cases a with
    | none => simp only [summaryFrom]; exact ih hg (i + 1)
    | some p =>
      obtain ⟨n, hn, _⟩ := h p (List.mem_cons_self _ _)
      obtain ⟨es, hes⟩ := ih hg (i + 1)
      exact ⟨(i, n.len) :: es, by simp [summaryFrom, hn, hes]⟩

theorem showSafeStats_ok (s : State) (r : Nat × Nat)
    (h : activeStats s.heap s.g_notes (0, 0) = Except.ok r) :
    ∃ o, showSafeStats s = Except.ok (s, o) := by
  unfold showSafeStats
  rw [h]
  exact ⟨_, rfl⟩

theorem showNoteSummary_ok (s : State) (es : List (Nat × Nat))
    (h : summaryFrom s.heap s.g_notes 0 = Except.ok es) :
    showNoteSummary s =
      Except.ok (s, Out.str "\nNote Summary:\n" :: (es.map summaryLine).flatten) := by
  unfold showNoteSummary
  rw [h]

theorem AllocInv_init : AllocInv init := by
  refine ⟨?_, ⟨0, 0, rfl, rfl⟩, rfl⟩
  intro p hp
  simp [init] at hp

theorem AllocInv_step (s : State) (op : Op) (hs : AllocInv s) (hop : op.createsOrReads = true) :
    ∃ s1 o1, step s op = Except.ok (s1, o1) ∧ AllocInv s1 := by
  obtain ⟨hread, ⟨count, bytes, hstats, halloc⟩, hfreed⟩ := hs
  cases op with
  | addNote len input =>
    simp only [Op.createsOrReads, decide_eq_true_eq] at hop
    have hmod := mul_two_mod_small len hop
    have hlen : (input.take len).length ≤ len := by simp
    have hadd := addNote_eq s len input
    rw [hmod, if_neg (by omega)] at hadd
    refine ⟨_, _, hadd, ?_, ⟨count + 1, bytes + len, ?_, ?_⟩, hfreed⟩
    · intro p hp
      simp only [List.mem_append, List.mem_singleton, Option.some.injEq] at hp
      rcases hp with hp | hp
      · obtain ⟨n, hn, hb⟩ := hread p hp
        exact ⟨n, deref_append _ _ _ _ hn, hb⟩
      · subst hp
        refine ⟨_, deref_append_new _ _, ?_⟩
        simp only [List.length_append, List.length_map, List.length_replicate]
        omega
    · exact activeStats_snoc _ _ _ _ (deref_append_new _ _) _ _
        (activeStats_append_heap _ _ _ _ _ hstats)
    · show s.secureStats.total_alloc + len * 2 = 2 * (bytes + len)
      omega
  | viewNote idx =>
    refine ⟨s, ?_⟩
    cases hsafe : safeIndex s idx with
    | false => exact ⟨_, viewNote_invalid s idx hsafe, hread, ⟨count, bytes, hstats, halloc⟩, hfreed⟩
    | true =>
      obtain ⟨p, hp⟩ := safeIndex_true s idx hsafe
      obtain ⟨n, hn, hb⟩ := hread p (List.getElem?_mem hp)
      exact ⟨_, viewNote_live s idx p n hp hn hb, hread, ⟨count, bytes, hstats, halloc⟩, hfreed⟩
  | showSafeStats =>
    obtain ⟨o, ho⟩ := showSafeStats_ok s _ hstats
    exact ⟨s, o, ho, hread, ⟨count, bytes, hstats, halloc⟩, hfreed⟩
  | showNoteSummary =>
    obtain ⟨es, hes⟩ := summaryFrom_ok s.heap s.g_notes hread 0
    exact ⟨s, _, showNoteSummary_ok s es hes, hread, ⟨count, bytes, hstats, halloc⟩, hfreed⟩
  | deleteNote idx => simp [Op.createsOrReads] at hop
  | viewDeletedNote idx => simp [Op.createsOrReads] at hop
  | clearAllNotes => simp [Op.createsOrReads] at hop

theorem AllocInv_run (ops : List Op) :
    ∀ s, AllocInv s → (∀ op ∈ ops, op.createsOrReads = true) →
      ∃ s1, run s ops = Except.ok s1 ∧ AllocInv s1 := by
  induction ops with
  | nil => intro s hs _; exact ⟨s, rfl, hs⟩
  | cons op ops ih =>
    intro s hs hops
    obtain ⟨s1, o1, hstep, hs1⟩ := AllocInv_step s op hs (hops op (List.mem_cons_self _ _))
    obtain ⟨s2, hrun, hs2⟩ := ih s1 hs1 (fun o ho => hops o (List.mem_cons_of_mem _ ho))
    exact ⟨s2, by simp only [run, hstep, hrun], hs2⟩

/-- C4, as stated, fails on the code. After one addNote with length 5 the
counters give total_alloc - total_freed = 10 - 0 while active_bytes is 5; after
the note is deleted again they give 10 - 1 while active_bytes is 0. -/
theorem byte_balance_broken :
    (∃ s, run init [Op.addNote 5 [97, 98]] = Except.ok s ∧
        activeStats s.heap s.g_notes (0, 0) = Except.ok (1, 5) ∧
        s.secureStats.total_alloc = 10 ∧ s.secureStats.total_freed = 0 ∧
        s.secureStats.total_alloc - s.secureStats.total_freed ≠ 5) ∧
    (∃ s, run init [Op.addNote 5 [97, 98], Op.deleteNote 0] = Except.ok s ∧
        activeStats s.heap s.g_notes (0, 0) = Except.ok (0, 0) ∧
        s.secureStats.total_alloc = 10 ∧ s.secureStats.total_freed = 1 ∧
        s.secureStats.total_alloc - s.secureStats.total_freed ≠ 0) :=
  ⟨⟨_, rfl, rfl, rfl, rfl, by decide⟩, ⟨_, rfl, rfl, rfl, rfl, by decide⟩⟩

/-- C4, amended: every finite sequence of addNote with lengths below 2^31,
viewNote, showSafeStats and showNoteSummary runs from the empty store without
fault, and in the state it reaches total_freed is 0 and
total_alloc - total_freed is twice active_bytes, the byte total that
showSafeStats computes over the live notes. -/
theorem byte_balance_create_read (ops : List Op)
    (hops : ∀ op ∈ ops, op.createsOrReads = true) :
    ∃ s count bytes, run init ops = Except.ok s ∧
      activeStats s.heap s.g_notes (0, 0) = Except.ok (count, bytes) ∧
      s.secureStats.total_freed = 0 ∧
      s.secureStats.total_alloc - s.secureStats.total_freed = 2 * bytes := by
  obtain ⟨s, hrun, _, ⟨count, bytes, hstats, halloc⟩, hfreed⟩ :=
    AllocInv_run ops init AllocInv_init hops
  exact ⟨s, count, bytes, hrun, hstats, hfreed, by rw [hfreed, halloc]; rfl⟩

/-- Witness of C4, amended: two notes are created, the first is viewed, and the
statistics and the summary are shown. -/
theorem byte_balance_create_read_witness :
    ∃ s count bytes,
      run init [Op.addNote 5 [97, 98], Op.viewNote 0, Op.addNote 1 [7], Op.showSafeStats,
        Op.showNoteSummary] = Except.ok s ∧
      activeStats s.heap s.g_notes (0, 0) = Except.ok (count, bytes) ∧
      s.secureStats.total_freed = 0 ∧
      s.secureStats.total_alloc - s.secureStats.total_freed = 2 * bytes :=
  byte_balance_create_read
    [Op.addNote 5 [97, 98], Op.viewNote 0, Op.addNote 1 [7], Op.showSafeStats, Op.showNoteSummary]
    (by decide)

/-! ## The balance of the note counters -/

/-- C5, on the code: after addNote with length 1 and clearAllNotes the store has
no slot at all, and clearAllNotes has counted nothing: notes_created is 1 and
notes_deleted is 0, so created - deleted is 1 while active_count is 0. -/
theorem clearAllNotes_keeps_notes_deleted :
    ∃ s, run init [Op.addNote 1 [97], Op.clearAllNotes] = Except.ok s ∧
      s.g_notes = [] ∧ s.heap = [Obj.freed] ∧
      s.secureStats.notes_created = 1 ∧ s.secureStats.notes_deleted = 0 ∧
      activeCount s = 0 ∧ activeStats s.heap s.g_notes (0, 0) = Except.ok (0, 0) ∧
      s.secureStats.notes_created - s.secureStats.notes_deleted ≠ activeCount s :=
  ⟨_, rfl, rfl, rfl, rfl, rfl, rfl, rfl, by decide⟩

/-! ## Deleting and reading by index -/

/-- C6: when slot i holds a live note, deleteNote on i succeeds, and deleteNote
on i again fails with the report for an invalid index and returns the state of
the first call unchanged: heap, slots and all four counters. -/
theorem deleteNote_twice (s : State) (i p : Nat) (n : Note)
    (h : s.g_notes[i]? = some (some p)) (hn : deref s.heap p = some n) :
    ∃ s1 o1, deleteNote s i = Except.ok (s1, o1) ∧
      Out.str "Note deleted.\n" ∈ o1 ∧
      s1.heap = s.heap.set p Obj.freed ∧
      s1.g_notes[i]? = some none ∧
      deleteNote s1 i = Except.ok (s1, promptIndex ++ [Out.str "Invalid index.\n"]) := by
  have hi : i < s.g_notes.length := by
    rcases Nat.lt_or_ge i s.g_notes.length with h1 | h1
    · exact h1
    · rw [List.getElem?_eq_none h1] at h; cases h
  have htomb : (s.g_notes.set i none)[i]? = some none := by
    simp [List.getElem?_set, hi]
  refine ⟨_, _, deleteNote_live s i p n h hn, by simp, rfl, htomb, ?_⟩
  exact deleteNote_invalid _ i (safeIndex_tombstone _ i htomb)

/-- Witness of C6: the store that holds one note of length 1 at index 0. -/
theorem deleteNote_twice_witness :
    ∃ s1 o1,
      deleteNote ⟨[Obj.live ⟨1, [some 7, none]⟩], [some 0], ⟨1, 0, 2, 0⟩, SIZE_MAX⟩ 0 =
        Except.ok (s1, o1) ∧
      Out.str "Note deleted.\n" ∈ o1 ∧
      s1.heap = [Obj.live ⟨1, [some 7, none]⟩].set 0 Obj.freed ∧
      s1.g_notes[0]? = some none ∧
      deleteNote s1 0 = Except.ok (s1, promptIndex ++ [Out.str "Invalid index.\n"]) :=
  deleteNote_twice ⟨[Obj.live ⟨1, [some 7, none]⟩], [some 0], ⟨1, 0, 2, 0⟩, SIZE_MAX⟩ 0 0
    ⟨1, [some 7, none]⟩ rfl rfl

/-- C7, as stated, fails on the code: in the store reached by creating a note and
deleting it, slot 0 is a tombstone and index 1 is out of range, and viewNote
gives the same report for both, so an empty slot is not told apart from an index
out of range. -/
theorem viewNote_tombstone_same_report :
    ∃ s, run init [Op.addNote 1 [97], Op.deleteNote 0] = Except.ok s ∧
      s.g_notes[0]? = some none ∧ s.g_notes.length ≤ 1 ∧
      viewNote s 0 = Except.ok (s, promptIndex ++ [Out.str "Invalid index.\n"]) ∧
      viewNote s 1 = viewNote s 0 :=
  ⟨_, rfl, rfl, by decide, rfl, rfl⟩

/-- C7, amended: for every index i below the slot count whose slot is a
tombstone, viewNote fails with the report for an invalid index, the same one an
index at or beyond the slot count gets; it returns the state unchanged, writes
no note bytes, and does so whatever the heap holds, so it dereferences no note. -/
theorem viewNote_tombstone (s : State) (i : Nat) (h : s.g_notes[i]? = some none) :
    viewNote s i = Except.ok (s, promptIndex ++ [Out.str "Invalid index.\n"]) ∧
    rawBytes (promptIndex ++ [Out.str "Invalid index.\n"]) = [] ∧
    (∀ heap, viewNote { s with heap := heap } i =
      Except.ok ({ s with heap := heap }, promptIndex ++ [Out.str "Invalid index.\n"])) ∧
    (∀ j, s.g_notes.length ≤ j → viewNote s j = viewNote s i) := by
  have h1 := viewNote_invalid s i (safeIndex_tombstone s i h)
  refine ⟨h1, rfl, ?_, ?_⟩
  · intro heap
    exact viewNote_invalid _ i (safeIndex_tombstone _ i h)
  · intro j hj
    rw [h1]
    exact viewNote_invalid s j (safeIndex_out_of_range s j hj)

/-- Witness of C7, amended: the store whose only slot is a tombstone. -/
theorem viewNote_tombstone_witness :
    viewNote ⟨[Obj.freed], [none], ⟨1, 1, 2, 1⟩, SIZE_MAX⟩ 0 =
      Except.ok (⟨[Obj.freed], [none], ⟨1, 1, 2, 1⟩, SIZE_MAX⟩,
        promptIndex ++ [Out.str "Invalid index.\n"]) ∧
    rawBytes (promptIndex ++ [Out.str "Invalid index.\n"]) = [] ∧
    (∀ heap, viewNote ⟨heap, [none], ⟨1, 1, 2, 1⟩, SIZE_MAX⟩ 0 =
      Except.ok (⟨heap, [none], ⟨1, 1, 2, 1⟩, SIZE_MAX⟩,
        promptIndex ++ [Out.str "Invalid index.\n"])) ∧
    (∀ j, 1 ≤ j → viewNote ⟨[Obj.freed], [none], ⟨1, 1, 2, 1⟩, SIZE_MAX⟩ j =
      viewNote ⟨[Obj.freed], [none], ⟨1, 1, 2, 1⟩, SIZE_MAX⟩ 0) :=
  viewNote_tombstone ⟨[Obj.freed], [none], ⟨1, 1, 2, 1⟩, SIZE_MAX⟩ 0 rfl

/-- C8: for every index i at or beyond the slot count, viewNote and deleteNote
both fail with the report for an invalid index and return the state unchanged. -/
theorem viewNote_deleteNote_out_of_range (s : State) (i : Nat) (h : s.g_notes.length ≤ i) :
    viewNote s i = Except.ok (s, promptIndex ++ [Out.str "Invalid index.\n"]) ∧
    deleteNote s i = Except.ok (s, promptIndex ++ [Out.str "Invalid index.\n"]) :=
  ⟨viewNote_invalid s i (safeIndex_out_of_range s i h),
   deleteNote_invalid s i (safeIndex_out_of_range s i h)⟩

/-- Witness of C8: index 1 on the store that holds one note. -/
theorem viewNote_deleteNote_out_of_range_witness :
    viewNote ⟨[Obj.live ⟨1, [some 7, none]⟩], [some 0], ⟨1, 0, 2, 0⟩, SIZE_MAX⟩ 1 =
      Except.ok (⟨[Obj.live ⟨1, [some 7, none]⟩], [some 0], ⟨1, 0, 2, 0⟩, SIZE_MAX⟩,
        promptIndex ++ [Out.str "Invalid index.\n"]) ∧
    deleteNote ⟨[Obj.live ⟨1, [some 7, none]⟩], [some 0], ⟨1, 0, 2, 0⟩, SIZE_MAX⟩ 1 =
      Except.ok (⟨[Obj.live ⟨1, [some 7, none]⟩], [some 0], ⟨1, 0, 2, 0⟩, SIZE_MAX⟩,
        promptIndex ++ [Out.str "Invalid index.\n"]) :=
  viewNote_deleteNote_out_of_range
    ⟨[Obj.live ⟨1, [some 7, none]⟩], [some 0], ⟨1, 0, 2, 0⟩, SIZE_MAX⟩ 1 (by decide)

/-! ## The counters of a single call -/

/-- C9, on the code: deleting the note of length 5 (for which addNote added 10 to
total_alloc) turns its slot into a tombstone and raises notes_deleted by 1,
but raises total_freed by 1, not by 5. -/
theorem deleteNote_counts_one_byte :
    ∃ s1 o1 s2 o2, addNote init 5 [97, 98] = Except.ok (s1, o1) ∧
      deleteNote s1 0 = Except.ok (s2, o2) ∧
      s2.g_notes = [none] ∧
      s2.secureStats.notes_deleted = s1.secureStats.notes_deleted + 1 ∧
      s2.secureStats.notes_created = s1.secureStats.notes_created ∧
      s2.secureStats.total_alloc = s1.secureStats.total_alloc ∧
      s1.secureStats.total_alloc = 10 ∧
      s2.secureStats.total_freed = s1.secureStats.total_freed + 1 ∧
      s2.secureStats.total_freed ≠ s1.secureStats.total_freed + 5 :=
  ⟨_, _, _, _, rfl, rfl, rfl, rfl, rfl, rfl, rfl, rfl, by decide⟩

/-- C10, as stated, fails on the code: addNote with length 5 raises total_alloc
from 0 to 10, not to 5. -/
theorem addNote_total_alloc_not_len :
    ∃ s1 o1, addNote init 5 [97, 98] = Except.ok (s1, o1) ∧
      s1.secureStats.total_alloc = init.secureStats.total_alloc + 10 ∧
      s1.secureStats.total_alloc ≠ init.secureStats.total_alloc + 5 :=
  ⟨_, _, rfl, rfl, by decide⟩

/-- C10, amended: for every requested length L below 2^31, addNote succeeds,
raises notes_created by exactly 1 and total_alloc by exactly 2 * L, and leaves
notes_deleted and total_freed unchanged. -/
theorem addNote_counters (s : State) (L : Nat) (input : List Nat) (hL : L < 2147483648) :
    ∃ s1 o1, addNote s L input = Except.ok (s1, o1) ∧
      s1.secureStats.notes_created = s.secureStats.notes_created + 1 ∧
      s1.secureStats.total_alloc = s.secureStats.total_alloc + 2 * L ∧
      s1.secureStats.notes_deleted = s.secureStats.notes_deleted ∧
      s1.secureStats.total_freed = s.secureStats.total_freed := by
  have hmod := mul_two_mod_small L hL
  have hlen : (input.take L).length ≤ L := by simp
  have hadd := addNote_eq s L input
  rw [hmod, if_neg (by omega)] at hadd
  refine ⟨_, _, hadd, rfl, ?_, rfl, rfl⟩
  show s.secureStats.total_alloc + L * 2 = s.secureStats.total_alloc + 2 * L
  omega

/-- Witness of C10, amended: length 3 on the store that holds one note. -/
theorem addNote_counters_witness :
    ∃ s1 o1,
      addNote ⟨[Obj.live ⟨1, [some 7, none]⟩], [some 0], ⟨1, 0, 2, 0⟩, SIZE_MAX⟩ 3 [1, 2, 3] =
        Except.ok (s1, o1) ∧
      s1.secureStats.notes_created = 1 + 1 ∧
      s1.secureStats.total_alloc = 2 + 2 * 3 ∧
      s1.secureStats.notes_deleted = 0 ∧
      s1.secureStats.total_freed = 0 :=
  addNote_counters ⟨[Obj.live ⟨1, [some 7, none]⟩], [some 0], ⟨1, 0, 2, 0⟩, SIZE_MAX⟩ 3
    [1, 2, 3] (by decide)

/-! ## The ownership relation of reachable states -/

theorem deref_lt (heap : List Obj) (p : Nat) (n : Note) (h : deref heap p = some n) :
    p < heap.length := by
  unfold deref at h
  rcases Nat.lt_or_ge p heap.length with h1 | h1
  · exact h1
  · rw [List.getElem?_eq_none h1] at h; cases h

theorem deref_set_ne (heap : List Obj) (p q : Nat) (x : Obj) (h : p ≠ q) :
    deref (heap.set p x) q = deref heap q := by
  unfold deref
  rw [List.getElem?_set_ne h]

theorem deref_set_freed (heap : List Obj) (p : Nat) :
    deref (heap.set p Obj.freed) p = none := by
  unfold deref
  rcases Nat.lt_or_ge p heap.length with h1 | h1
  · rw [List.getElem?_set_self h1]
  · rw [List.getElem?_eq_none (by simpa using h1)]

theorem viewNote_state (s s1 : State) (i : Nat) (o : List Out)
    (h : viewNote s i = Except.ok (s1, o)) : s1 = s := by
  unfold viewNote at h
  split at h
  · simp only [Except.ok.injEq, Prod.mk.injEq] at h; exact h.1.symm
  · split at h
    · cases h
    · split at h
      · cases h
      · split at h
        · cases h
        · simp only [Except.ok.injEq, Prod.mk.injEq] at h; exact h.1.symm

theorem showSafeStats_state (s s1 : State) (o : List Out)
    (h : showSafeStats s = Except.ok (s1, o)) : s1 = s := by
  unfold showSafeStats at h
  split at h
  · cases h
  · simp only [Except.ok.injEq, Prod.mk.injEq] at h; exact h.1.symm

theorem showNoteSummary_state (s s1 : State) (o : List Out)
    (h : showNoteSummary s = Except.ok (s1, o)) : s1 = s := by
  unfold showNoteSummary at h
  split at h
  · cases h
  · simp only [Except.ok.injEq, Prod.mk.injEq] at h; exact h.1.symm

theorem viewDeletedNote_state (s s1 : State) (i : Nat) (o : List Out)
    (h : viewDeletedNote s i = Except.ok (s1, o)) :
    s1.heap = s.heap ∧ s1.g_notes = s.g_notes ∧ s1.secureStats = s.secureStats := by
  unfold viewDeletedNote at h
  split at h
  · simp only [Except.ok.injEq, Prod.mk.injEq] at h; rw [← h.1]; exact ⟨rfl, rfl, rfl⟩
  · split at h
    · simp only [Except.ok.injEq, Prod.mk.injEq] at h; rw [← h.1]; exact ⟨rfl, rfl, rfl⟩
    · split at h
      · simp only [Except.ok.injEq, Prod.mk.injEq] at h; rw [← h.1]; exact ⟨rfl, rfl, rfl⟩
      · split at h
        · cases h
        · split at h
          · cases h
          · simp only [Except.ok.injEq, Prod.mk.injEq] at h; rw [← h.1]; exact ⟨rfl, rfl, rfl⟩

theorem addNote_state (s s1 : State) (len : Nat) (input : List Nat) (o : List Out)
    (h : addNote s len input = Except.ok (s1, o)) :
    (input.take len).length ≤ (len * 2) % UINT32_MOD ∧
    s1 = { heap := s.heap ++ [Obj.live ⟨len, (input.take len).map some ++
              List.replicate ((len * 2) % UINT32_MOD - (input.take len).length) none⟩],
           g_notes := s.g_notes ++ [some s.heap.length],
           secureStats := ⟨s.secureStats.notes_created + 1, s.secureStats.notes_deleted,
              s.secureStats.total_alloc + (len * 2) % UINT32_MOD, s.secureStats.total_freed⟩,
           cachedIdx := s.cachedIdx } ∧
    o = [Out.str "Enter note length: ",
          Out.str "Enter note content (", Out.num len, Out.str " bytes expected):\n",
          Out.log "Added note of length " (some len),
          Out.str "Note added at index ", Out.num s.g_notes.length, Out.str "\n"] := by
  rw [addNote_eq] at h
  split at h
  · cases h
  · rename_i hlt
    simp only [Except.ok.injEq, Prod.mk.injEq] at h
    exact ⟨Nat.not_lt.mp hlt, h.1.symm, h.2.symm⟩

theorem deleteNote_state (s s1 : State) (i : Nat) (o : List Out)
    (h : deleteNote s i = Except.ok (s1, o)) :
    (safeIndex s i = false ∧ s1 = s ∧ o = promptIndex ++ [Out.str "Invalid index.\n"]) ∨
    (∃ p n, s.g_notes[i]? = some (some p) ∧ deref s.heap p = some n ∧
      s1 = { heap := s.heap.set p Obj.freed, g_notes := s.g_notes.set i none,
             secureStats := ⟨s.secureStats.notes_created, s.secureStats.notes_deleted + 1,
                s.secureStats.total_alloc, s.secureStats.total_freed + 1⟩,
             cachedIdx := s.cachedIdx } ∧
      o = promptIndex ++ [Out.log "Deleted note at index " (some i), Out.str "Note deleted.\n"]) := by
  cases hsafe : safeIndex s i with
  | false =>
    rw [deleteNote_invalid s i hsafe] at h
    simp only [Except.ok.injEq, Prod.mk.injEq] at h
    exact Or.inl ⟨rfl, h.1.symm, h.2.symm⟩
  | true =>
    obtain ⟨p, hp⟩ := safeIndex_true s i hsafe
    cases hd : deref s.heap p with
    | none =>
      obtain ⟨h1, h2⟩ := safeIndex_live s i p hp
      unfold deleteNote at h
      rw [h1, h2] at h
      simp [hd] at h
    | some n =>
      rw [deleteNote_live s i p n hp hd] at h
      simp only [Except.ok.injEq, Prod.mk.injEq] at h
      exact Or.inr ⟨p, n, hp, hd, h.1.symm, h.2.symm⟩

theorem clearAllNotes_state (s s1 : State) (o : List Out)
    (h : clearAllNotes s = Except.ok (s1, o)) :
    ∃ heap, freeAll s.g_notes s.heap = Except.ok heap ∧
      s1 = { s with heap := heap, g_notes := [] } ∧
      o = [Out.log "Cleared all notes" none, Out.str "All notes cleared.\n"] := by
  unfold clearAllNotes at h
  split at h
  · cases h
  · rename_i heap hfree
    simp only [Except.ok.injEq, Prod.mk.injEq] at h
    exact ⟨heap, hfree, h.1.symm, h.2.symm⟩

theorem live_index (heap : List Obj) (g : List (Option Nat)) (h : Live heap g) (i p : Nat)
    (hp : g[i]? = some (some p)) : ∃ n, deref heap p = some n :=
  h p (List.getElem?_mem hp)

theorem freeAll_ok (g : List (Option Nat)) :
    ∀ heap, Live heap g → Distinct g → ∃ heap1, freeAll g heap = Except.ok heap1 := by
  induction g with
  | nil => intro heap _ _; exact ⟨heap, rfl⟩
  | cons a g ih =>
    intro heap hl hd
    have hd1 : Distinct g := fun i j p hi hj => by
      have := hd (i + 1) (j + 1) p (by simpa using hi) (by simpa using hj)
      omega
    cases a with
    | none =>
      simp only [freeAll]
      exact ih heap (fun p hp => hl p (List.mem_cons_of_mem _ hp)) hd1
    | some q =>
      obtain ⟨n, hn⟩ := hl q (List.mem_cons_self _ _)
      simp only [freeAll, hn]
      apply ih _ _ hd1
      intro p hp
      obtain ⟨m, hm⟩ := hl p (List.mem_cons_of_mem _ hp)
      obtain ⟨j, hj⟩ := List.mem_iff_getElem?.mp hp
      have hne : q ≠ p := by
        intro heq
        subst heq
        have := hd 0 (j + 1) q (by simp) (by simpa using hj)
        omega
      exact ⟨m, by rw [deref_set_ne _ _ _ _ hne]; exact hm⟩

theorem WF_init : WF init := by
  constructor
  · intro p hp; simp [init] at hp
  · intro i j p hi; simp [init] at hi

theorem WF_addNote (s s1 : State) (len : Nat) (input : List Nat) (o : List Out)
    (hs : WF s) (h : addNote s len input = Except.ok (s1, o)) : WF s1 := by
  obtain ⟨_, h1, _⟩ := addNote_state s s1 len input o h
  subst h1
  obtain ⟨hl, hd⟩ := hs
  constructor
  · intro p hp
    simp only [List.mem_append, List.mem_singleton, Option.some.injEq] at hp
    rcases hp with hp | hp
    · obtain ⟨n, hn⟩ := hl p hp
      exact ⟨n, deref_append _ _ _ _ hn⟩
    · subst hp
      exact ⟨_, deref_append_new _ _⟩
  · intro i j p hi hj
    simp only at hi hj
    have key : ∀ k, (s.g_notes ++ [some s.heap.length])[k]? = some (some p) →
        (k < s.g_notes.length ∧ s.g_notes[k]? = some (some p)) ∨
        (k = s.g_notes.length ∧ p = s.heap.length) := by
      intro k hk
      rcases Nat.lt_or_ge k s.g_notes.length with h1 | h1
      · rw [List.getElem?_append_left h1] at hk
        exact Or.inl ⟨h1, hk⟩
      · rw [List.getElem?_append_right h1] at hk
        have h0 : k - s.g_notes.length = 0 := by
          rcases Nat.eq_zero_or_pos (k - s.g_notes.length) with h0 | h0
          · exact h0
          · rw [List.getElem?_eq_none (by simp only [List.length_singleton]; omega)] at hk; cases hk
        rw [h0] at hk
        simp only [List.getElem?_cons_zero, Option.some.injEq] at hk
        exact Or.inr ⟨by omega, hk.symm⟩
    rcases key i hi with ⟨hi1, hi2⟩ | ⟨hi1, hi2⟩ <;> rcases key j hj with ⟨hj1, hj2⟩ | ⟨hj1, hj2⟩
    · exact hd i j p hi2 hj2
    · obtain ⟨n, hn⟩ := live_index _ _ hl i p hi2
      have := deref_lt _ _ _ hn
      omega
    · obtain ⟨n, hn⟩ := live_index _ _ hl j p hj2
      have := deref_lt _ _ _ hn
      omega
    · omega

theorem WF_deleteNote (s s1 : State) (i : Nat) (o : List Out)
    (hs : WF s) (h : deleteNote s i = Except.ok (s1, o)) : WF s1 := by
  rcases deleteNote_state s s1 i o h with ⟨_, h1, _⟩ | ⟨p, n, hp, hn, h1, _⟩
  · rw [h1]; exact hs
  · subst h1
    obtain ⟨hl, hd⟩ := hs
    have hget : ∀ j q, (s.g_notes.set i none)[j]? = some (some q) →
        j ≠ i ∧ s.g_notes[j]? = some (some q) := by
      intro j q hj
      rw [List.getElem?_set] at hj
      split at hj
      · split at hj <;> cases hj
      · rename_i hne
        exact ⟨fun e => hne e.symm, hj⟩
    constructor
    · intro q hq
      obtain ⟨j, hj⟩ := List.mem_iff_getElem?.mp hq
      obtain ⟨hne, hj1⟩ := hget j q hj
      obtain ⟨m, hm⟩ := live_index _ _ hl j q hj1
      have hpq : p ≠ q := by
        intro e
        subst e
        exact hne (hd j i p hj1 hp)
      exact ⟨m, by simp only; rw [deref_set_ne _ _ _ _ hpq]; exact hm⟩
    · intro j k q hj hk
      exact hd j k q (hget j q hj).2 (hget k q hk).2

theorem WF_step (s s1 : State) (op : Op) (o : List Out)
    (hs : WF s) (h : step s op = Except.ok (s1, o)) : WF s1 := by
  cases op with
  | addNote len input => exact WF_addNote s s1 len input o hs h
  | viewNote idx => rw [viewNote_state s s1 idx o h]; exact hs
  | deleteNote idx => exact WF_deleteNote s s1 idx o hs h
  | viewDeletedNote idx =>
    obtain ⟨h1, h2, _⟩ := viewDeletedNote_state s s1 idx o h
    unfold WF
    rw [h1, h2]
    exact hs
  | showSafeStats => rw [showSafeStats_state s s1 o h]; exact hs
  | showNoteSummary => rw [showNoteSummary_state s s1 o h]; exact hs
  | clearAllNotes =>
    obtain ⟨heap, _, h1, _⟩ := clearAllNotes_state s s1 o h
    subst h1
    constructor
    · intro p hp; simp at hp
    · intro i j p hi; simp at hi

theorem WF_run (ops : List Op) :
    ∀ s s1, WF s → run s ops = Except.ok s1 → WF s1 := by
  induction ops with
  | nil =>
    intro s s1 hs h
    simp only [run, Except.ok.injEq] at h
    rw [← h]; exact hs
  | cons op ops ih =>
    intro s s1 hs h
    simp only [run] at h
    split at h
    · cases h
    · rename_i s2 o2 hstep
      exact ih s2 s1 (WF_step s s2 op o2 hs hstep) h

theorem WF_reachable (s : State) (h : Reachable s) : WF s := by
  obtain ⟨ops, hrun⟩ := h
  exact WF_run ops init s WF_init hrun

/-! ## Slots are appended and never moved -/

theorem reportedIndex_addNote (len k : Nat) :
    reportedIndex
      [Out.str "Enter note length: ",
       Out.str "Enter note content (", Out.num len, Out.str " bytes expected):\n",
       Out.log "Added note of length " (some len),
       Out.str "Note added at index ", Out.num k, Out.str "\n"] = some k := by
  simp [reportedIndex]

/-- C11: every successful addNote on a reachable store appends exactly one slot,
which is live and holds a note with the requested len, reports as its index the
slot count before the call, and leaves every earlier slot with the same pointer
and the same note (liveness, len and content). -/
theorem addNote_appends_slot (s s1 : State) (L : Nat) (input : List Nat) (o1 : List Out)
    (hs : Reachable s) (h : addNote s L input = Except.ok (s1, o1)) :
    s1.g_notes.length = s.g_notes.length + 1 ∧
    (∃ n, slotNote s1 s.g_notes.length = some n ∧ n.len = L) ∧
    reportedIndex o1 = some s.g_notes.length ∧
    ∀ j, j < s.g_notes.length →
      s1.g_notes[j]? = s.g_notes[j]? ∧ slotNote s1 j = slotNote s j := by
  obtain ⟨hl, _⟩ := WF_reachable s hs
  obtain ⟨_, h1, h2⟩ := addNote_state s s1 L input o1 h
  subst h1 h2
  refine ⟨by simp,
    ⟨⟨L, (input.take L).map some ++
      List.replicate ((L * 2) % UINT32_MOD - (input.take L).length) none⟩, ?_, rfl⟩,
    reportedIndex_addNote _ _, ?_⟩
  · simp only [slotNote, List.getElem?_append_right (Nat.le_refl _), Nat.sub_self,
      List.getElem?_cons_zero]
    exact deref_append_new _ _
  · intro j hj
    have hg : (s.g_notes ++ [some s.heap.length])[j]? = s.g_notes[j]? :=
      List.getElem?_append_left hj
    refine ⟨hg, ?_⟩
    simp only [slotNote, hg]
    cases hj1 : s.g_notes[j]? with
    | none => rfl
    | some a =>
      cases a with
      | none => rfl
      | some p =>
        obtain ⟨n, hn⟩ := live_index _ _ hl j p hj1
        simp only [hn]
        exact deref_append _ _ _ _ hn

/-- Witness of C11: a second note is added to the store that holds one note. -/
theorem addNote_appends_slot_witness :
    storeTwo.g_notes.length = storeOne.g_notes.length + 1 ∧
    (∃ n, slotNote storeTwo storeOne.g_notes.length = some n ∧ n.len = 1) ∧
    reportedIndex
      [Out.str "Enter note length: ",
       Out.str "Enter note content (", Out.num 1, Out.str " bytes expected):\n",
       Out.log "Added note of length " (some 1),
       Out.str "Note added at index ", Out.num 1, Out.str "\n"] = some storeOne.g_notes.length ∧
    ∀ j, j < storeOne.g_notes.length →
      storeTwo.g_notes[j]? = storeOne.g_notes[j]? ∧ slotNote storeTwo j = slotNote storeOne j :=
  addNote_appends_slot storeOne storeTwo 1 [8] _ ⟨[Op.addNote 1 [7]], rfl⟩ rfl

/-- C12: for every index i that holds a live note in a reachable store,
deleteNote on i succeeds, leaves the slot count unchanged, and leaves every
slot j other than i with the same pointer and the same note (liveness, len and
content): no other index is shifted or renumbered. -/
theorem deleteNote_frame (s : State) (i p : Nat) (hs : Reachable s)
    (h : s.g_notes[i]? = some (some p)) :
    ∃ s1 o1, deleteNote s i = Except.ok (s1, o1) ∧
      s1.g_notes.length = s.g_notes.length ∧
      ∀ j, j ≠ i → s1.g_notes[j]? = s.g_notes[j]? ∧ slotNote s1 j = slotNote s j := by
  obtain ⟨hl, hd⟩ := WF_reachable s hs
  obtain ⟨n, hn⟩ := live_index _ _ hl i p h
  refine ⟨_, _, deleteNote_live s i p n h hn, by simp, ?_⟩
  intro j hj
  have hg : (s.g_notes.set i none)[j]? = s.g_notes[j]? :=
    List.getElem?_set_ne (fun e => hj e.symm)
  refine ⟨hg, ?_⟩
  simp only [slotNote, hg]
  cases hj1 : s.g_notes[j]? with
  | none => rfl
  | some a =>
    cases a with
    | none => rfl
    | some q =>
      have hpq : p ≠ q := by
        intro e
        subst e
        exact hj (hd j i p hj1 h)
      simp only
      exact deref_set_ne _ _ _ _ hpq

/-- Witness of C12: the first of two notes is deleted. -/
theorem deleteNote_frame_witness :
    ∃ s1 o1, deleteNote storeTwo 0 = Except.ok (s1, o1) ∧
      s1.g_notes.length = storeTwo.g_notes.length ∧
      ∀ j, j ≠ 0 → s1.g_notes[j]? = storeTwo.g_notes[j]? ∧ slotNote s1 j = slotNote storeTwo j :=
  deleteNote_frame storeTwo 0 0 ⟨[Op.addNote 1 [7], Op.addNote 1 [8]], rfl⟩ rfl

/-! ## Slots over a run -/

theorem reportedIndex_str (t : String) (os : List Out) (h : t ≠ "Note added at index ") :
    reportedIndex (Out.str t :: os) = reportedIndex os := by
  cases os with
  | nil => simp [reportedIndex]
  | cons a l => cases a <;> simp [reportedIndex, h]

theorem reportedIndex_num (k : Nat) (os : List Out) :
    reportedIndex (Out.num k :: os) = reportedIndex os := by
  simp [reportedIndex]

theorem reportedIndex_raw (bs : List Cell) (os : List Out) :
    reportedIndex (Out.raw bs :: os) = reportedIndex os := by
  simp [reportedIndex]

theorem reportedIndex_ptr (p : Option Nat) (os : List Out) :
    reportedIndex (Out.ptr p :: os) = reportedIndex os := by
  simp [reportedIndex]

theorem reportedIndex_log (a : String) (n : Option Nat) (os : List Out) :
    reportedIndex (Out.log a n :: os) = reportedIndex os := by
  simp [reportedIndex]

theorem reportedIndex_summary (es : List (Nat × Nat)) :
    reportedIndex (es.map summaryLine).flatten = none := by
  induction es with
  | nil => rfl
  | cons e es ih =>
    simp only [List.map_cons, List.flatten_cons, summaryLine, List.cons_append, List.nil_append]
    rw [reportedIndex_str _ _ (by decide), reportedIndex_num, reportedIndex_str _ _ (by decide),
      reportedIndex_num, reportedIndex_str _ _ (by decide)]
    exact ih

theorem viewNote_reported (s s1 : State) (i : Nat) (o : List Out)
    (h : viewNote s i = Except.ok (s1, o)) : reportedIndex o = none := by
  unfold viewNote at h
  split at h
  · simp only [Except.ok.injEq, Prod.mk.injEq] at h
    rw [← h.2]; simp [reportedIndex, promptIndex]
  · split at h
    · cases h
    · split at h
      · cases h
      · split at h
        · cases h
        · simp only [Except.ok.injEq, Prod.mk.injEq] at h
          rw [← h.2]; simp [reportedIndex, promptIndex]

theorem viewDeletedNote_reported (s s1 : State) (i : Nat) (o : List Out)
    (h : viewDeletedNote s i = Except.ok (s1, o)) : reportedIndex o = none := by
  unfold viewDeletedNote at h
  split at h
  · simp only [Except.ok.injEq, Prod.mk.injEq] at h
    rw [← h.2]; simp [reportedIndex, promptIndex]
  · split at h
    · simp only [Except.ok.injEq, Prod.mk.injEq] at h
      rw [← h.2]; simp [reportedIndex]
    · split at h
      · simp only [Except.ok.injEq, Prod.mk.injEq] at h
        rw [← h.2]; simp [reportedIndex]
      · split at h
        · cases h
        · split at h
          · cases h
          · simp only [Except.ok.injEq, Prod.mk.injEq] at h
            rw [← h.2]; simp [reportedIndex]

theorem showSafeStats_reported (s s1 : State) (o : List Out)
    (h : showSafeStats s = Except.ok (s1, o)) : reportedIndex o = none := by
  unfold showSafeStats at h
  split at h
  · cases h
  · simp only [Except.ok.injEq, Prod.mk.injEq] at h
    rw [← h.2]; simp [reportedIndex]

theorem showNoteSummary_reported (s s1 : State) (o : List Out)
    (h : showNoteSummary s = Except.ok (s1, o)) : reportedIndex o = none := by
  unfold showNoteSummary at h
  split at h
  · cases h
  · simp only [Except.ok.injEq, Prod.mk.injEq] at h
    rw [← h.2]
    rw [reportedIndex_str _ _ (by decide)]
    exact reportedIndex_summary _

theorem step_slots (s s1 : State) (op : Op) (o : List Out)
    (hop : op ≠ Op.clearAllNotes) (h : step s op = Except.ok (s1, o)) :
    s.g_notes.length ≤ s1.g_notes.length ∧
    (∀ i : Nat, s.g_notes[i]? = some none → s1.g_notes[i]? = some none) ∧
    (∀ j, reportedIndex o = some j → s.g_notes.length ≤ j ∧ j < s1.g_notes.length) := by
  cases op with
  | addNote len input =>
    obtain ⟨_, h1, h2⟩ := addNote_state s s1 len input o h
    subst h1 h2
    refine ⟨by simp, ?_, ?_⟩
    · intro i hi
      have hlt : i < s.g_notes.length := by
        rcases Nat.lt_or_ge i s.g_notes.length with h1 | h1
        · exact h1
        · rw [List.getElem?_eq_none h1] at hi; cases hi
      show (s.g_notes ++ [some s.heap.length])[i]? = some none
      rw [List.getElem?_append_left hlt]; exact hi
    · intro j hj
      rw [reportedIndex_addNote] at hj
      simp only [Option.some.injEq] at hj
      subst hj
      simp
  | viewNote idx =>
    have h1 := viewNote_state s s1 idx o h
    have h2 := viewNote_reported s s1 idx o h
    subst h1
    exact ⟨Nat.le_refl _, fun _ hi => hi, fun j hj => by rw [h2] at hj; cases hj⟩
  | deleteNote idx =>
    rcases deleteNote_state s s1 idx o h with ⟨_, h1, h2⟩ | ⟨p, n, hp, hn, h1, h2⟩
    · subst h1 h2
      refine ⟨Nat.le_refl _, fun _ hi => hi, fun j hj => ?_⟩
      simp [promptIndex, reportedIndex] at hj
    · subst h1 h2
      refine ⟨by simp, ?_, fun j hj => ?_⟩
      · intro i hi
        show (s.g_notes.set idx none)[i]? = some none
        rw [List.getElem?_set]
        split
        · rename_i e
          subst e
          rw [hp] at hi
          cases hi
        · exact hi
      · simp [promptIndex, reportedIndex] at hj
  | viewDeletedNote idx =>
    obtain ⟨_, h1, _⟩ := viewDeletedNote_state s s1 idx o h
    have h2 := viewDeletedNote_reported s s1 idx o h
    rw [h1]
    exact ⟨Nat.le_refl _, fun _ hi => hi, fun j hj => by rw [h2] at hj; cases hj⟩
  | showSafeStats =>
    have h1 := showSafeStats_state s s1 o h
    have h2 := showSafeStats_reported s s1 o h
    subst h1
    exact ⟨Nat.le_refl _, fun _ hi => hi, fun j hj => by rw [h2] at hj; cases hj⟩
  | showNoteSummary =>
    have h1 := showNoteSummary_state s s1 o h
    have h2 := showNoteSummary_reported s s1 o h
    subst h1
    exact ⟨Nat.le_refl _, fun _ hi => hi, fun j hj => by rw [h2] at hj; cases hj⟩
  | clearAllNotes => exact absurd rfl hop

theorem runTrace_cons (s : State) (op : Op) (ops : List Op) (t : List (State × List Out))
    (h : runTrace s (op :: ops) = Except.ok t) :
    ∃ s1 o1 t1, step s op = Except.ok (s1, o1) ∧ runTrace s1 ops = Except.ok t1 ∧
      t = (s1, o1) :: t1 := by
  simp only [runTrace] at h
  split at h
  · cases h
  · rename_i s1 o1 hstep
    split at h
    · cases h
    · rename_i t1 ht1
      simp only [Except.ok.injEq] at h
      exact ⟨s1, o1, t1, hstep, ht1, h.symm⟩

theorem trace_slots (ops : List Op) :
    ∀ (s : State) (t : List (State × List Out)),
      (∀ op ∈ ops, op ≠ Op.clearAllNotes) → runTrace s ops = Except.ok t →
      ∀ b ∈ t, s.g_notes.length ≤ b.1.g_notes.length ∧
        (∀ i : Nat, s.g_notes[i]? = some none → b.1.g_notes[i]? = some none) ∧
        (∀ j, reportedIndex b.2 = some j → s.g_notes.length ≤ j) := by
  induction ops with
  | nil =>
    intro s t _ ht b hb
    simp only [runTrace, Except.ok.injEq] at ht
    subst ht
    cases hb
  | cons op ops ih =>
    intro s t hops ht b hb
    obtain ⟨s1, o1, t1, hstep, ht1, heq⟩ := runTrace_cons s op ops t ht
    subst heq
    obtain ⟨k1, k2, k3⟩ := step_slots s s1 op o1 (hops op (List.mem_cons_self _ _)) hstep
    rcases List.mem_cons.mp hb with hb | hb
    · subst hb
      exact ⟨k1, k2, fun j hj => (k3 j hj).1⟩
    · obtain ⟨m1, m2, m3⟩ :=
        ih s1 t1 (fun o ho => hops o (List.mem_cons_of_mem _ ho)) ht1 b hb
      exact ⟨Nat.le_trans k1 m1, fun i hi => m2 i (k2 i hi),
        fun j hj => Nat.le_trans k1 (m3 j hj)⟩

theorem trace_pairwise (ops : List Op) :
    ∀ (s : State) (o : List Out) (t : List (State × List Out)),
      (∀ op ∈ ops, op ≠ Op.clearAllNotes) → runTrace s ops = Except.ok t →
      (∀ i, reportedIndex o = some i → i < s.g_notes.length) →
      List.Pairwise SlotsKept ((s, o) :: t) := by
  induction ops with
  | nil =>
    intro s o t _ ht _
    simp only [runTrace, Except.ok.injEq] at ht
    subst ht
    exact List.pairwise_singleton _ _
  | cons op ops ih =>
    intro s o t hops ht ho
    have hall := trace_slots (op :: ops) s t hops ht
    obtain ⟨s1, o1, t1, hstep, ht1, heq⟩ := runTrace_cons s op ops t ht
    subst heq
    obtain ⟨_, _, k3⟩ := step_slots s s1 op o1 (hops op (List.mem_cons_self _ _)) hstep
    rw [List.pairwise_cons]
    refine ⟨?_, ih s1 o1 t1 (fun o ho => hops o (List.mem_cons_of_mem _ ho)) ht1
      (fun i hi => (k3 i hi).2)⟩
    intro b hb
    obtain ⟨m1, m2, m3⟩ := hall b hb
    exact ⟨m1, m2, fun i j hi hj => Nat.lt_of_lt_of_le (ho i hi) (m3 j hj)⟩

/-- C13, as stated, fails on the code: in the run addNote, deleteNote 0,
clearAllNotes, addNote the slot count goes 1, 1, 0, 1, slot 0 is a tombstone
after the second call and live after the fourth, and both calls of addNote
report index 0. -/
theorem clearAllNotes_reuses_slots :
    ∃ s1 o1 s2 o2 s3 o3 s4 o4,
      runTrace init [Op.addNote 1 [97], Op.deleteNote 0, Op.clearAllNotes, Op.addNote 1 [98]] =
        Except.ok [(s1, o1), (s2, o2), (s3, o3), (s4, o4)] ∧
      s2.g_notes.length = 1 ∧ s3.g_notes.length = 0 ∧
      s2.g_notes[0]? = some none ∧ s4.g_notes[0]? = some (some 1) ∧
      slotNote s4 0 = some ⟨1, [some 98, none]⟩ ∧
      reportedIndex o1 = some 0 ∧ reportedIndex o4 = some 0 :=
  ⟨_, _, _, _, _, _, _, _, rfl, rfl, rfl, rfl, rfl, rfl, rfl, rfl⟩

/-- C13, amended: across every run of choices other than clearAllNotes, from any
state, the slot count never decreases, a slot that is a tombstone stays a
tombstone, and an index reported by addNote is below every index a later
addNote reports, so it is never reported again. -/
theorem slots_permanent_without_clear (s : State) (ops : List Op)
    (t : List (State × List Out))
    (hops : ∀ op ∈ ops, op ≠ Op.clearAllNotes) (ht : runTrace s ops = Except.ok t) :
    List.Pairwise SlotsKept ((s, []) :: t) :=
  trace_pairwise ops s [] t hops ht (fun i hi => by simp [reportedIndex] at hi)

/-- Witness of C13, amended: two notes are created, the first is deleted and
a third is created. -/
theorem slots_permanent_without_clear_witness :
    ∃ t, runTrace init
        [Op.addNote 1 [7], Op.addNote 1 [8], Op.deleteNote 0, Op.addNote 2 [9, 9]] =
          Except.ok t ∧
      t.map (fun b => (b.1.g_notes, reportedIndex b.2)) =
        [([some 0], some 0), ([some 0, some 1], some 1), ([none, some 1], none),
         ([none, some 1, some 2], some 2)] ∧
      List.Pairwise SlotsKept ((init, []) :: t) :=
  ⟨_, rfl, rfl,
    slots_permanent_without_clear init
      [Op.addNote 1 [7], Op.addNote 1 [8], Op.deleteNote 0, Op.addNote 2 [9, 9]] _
      (by decide) rfl⟩

/-! ## What viewNote reads -/

theorem deref_mem (heap : List Obj) (p : Nat) (n : Note) (h : deref heap p = some n) :
    Obj.live n ∈ heap := by
  unfold deref at h
  split at h
  · rename_i m hm
    simp only [Option.some.injEq] at h
    subst h
    exact List.getElem?_mem hm
  · cases h

theorem freeAll_mem (g : List (Option Nat)) :
    ∀ heap heap1, freeAll g heap = Except.ok heap1 →
      ∀ x ∈ heap1, x ∈ heap ∨ x = Obj.freed := by
  induction g with
  | nil =>
    intro heap heap1 h x hx
    simp only [freeAll, Except.ok.injEq] at h
    subst h
    exact Or.inl hx
  | cons a g ih =>
    intro heap heap1 h x hx
    cases a with
    | none => simp only [freeAll] at h; exact ih heap heap1 h x hx
    | some p =>
      simp only [freeAll] at h
      split at h
      · cases h
      · rcases ih _ heap1 h x hx with h1 | h1
        · exact List.mem_or_eq_of_mem_set h1
        · exact Or.inr h1

theorem ShapeInv_step (s s1 : State) (op : Op) (o : List Out)
    (hop : op.lenBelow = true) (h : step s op = Except.ok (s1, o))
    (hs : ShapeInv s.heap) : ShapeInv s1.heap := by
  cases op with
  | addNote len input =>
    simp only [Op.lenBelow, decide_eq_true_eq] at hop
    obtain ⟨_, h1, _⟩ := addNote_state s s1 len input o h
    subst h1
    intro n hn
    simp only [List.mem_append, List.mem_singleton, Obj.live.injEq] at hn
    rcases hn with hn | hn
    · exact hs n hn
    · subst hn
      refine ⟨input.take len, by simp, ?_⟩
      rw [mul_two_mod_small len hop, Nat.mul_comm]
  | viewNote idx => rw [viewNote_state s s1 idx o h]; exact hs
  | deleteNote idx =>
    rcases deleteNote_state s s1 idx o h with ⟨_, h1, _⟩ | ⟨p, n, _, _, h1, _⟩
    · rw [h1]; exact hs
    · subst h1
      intro m hm
      rcases List.mem_or_eq_of_mem_set hm with h1 | h1
      · exact hs m h1
      · cases h1
  | viewDeletedNote idx =>
    obtain ⟨h1, _, _⟩ := viewDeletedNote_state s s1 idx o h
    rw [h1]; exact hs
  | showSafeStats => rw [showSafeStats_state s s1 o h]; exact hs
  | showNoteSummary => rw [showNoteSummary_state s s1 o h]; exact hs
  | clearAllNotes =>
    obtain ⟨heap, hfree, h1, _⟩ := clearAllNotes_state s s1 o h
    subst h1
    intro m hm
    rcases freeAll_mem _ _ _ hfree _ hm with h1 | h1
    · exact hs m h1
    · cases h1

theorem ShapeInv_run (ops : List Op) :
    ∀ s s1, (∀ op ∈ ops, op.lenBelow = true) → run s ops = Except.ok s1 →
      ShapeInv s.heap → ShapeInv s1.heap := by
  induction ops with
  | nil =>
    intro s s1 _ h hs
    simp only [run, Except.ok.injEq] at h
    rw [← h]; exact hs
  | cons op ops ih =>
    intro s s1 hops h hs
    simp only [run] at h
    split at h
    · cases h
    · rename_i s2 o2 hstep
      exact ih s2 s1 (fun o ho => hops o (List.mem_cons_of_mem _ ho)) h
        (ShapeInv_step s s2 op o2 (hops op (List.mem_cons_self _ _)) hstep hs)

/-- C14, as stated, fails on the code. The note created with length 4 from one
byte is viewed as that byte followed by three uninitialised bytes; and the note
created with length 2^31 + 1 has an allocation of 2 bytes, so viewing it reads
past the allocation. -/
theorem viewNote_exposes_uninitialised :
    (∃ s1 o1 o2, addNote init 4 [120] = Except.ok (s1, o1) ∧
        viewNote s1 0 = Except.ok (s1, o2) ∧
        rawBytes o2 = [some 120, none, none, none]) ∧
    (∃ s1 o1 n, addNote init 2147483649 [120] = Except.ok (s1, o1) ∧
        deref s1.heap 0 = some n ∧ n.len = 2147483649 ∧ n.buf.length = 2 ∧
        viewNote s1 0 = Except.error Fault.outOfBoundsRead) :=
  ⟨⟨_, _, _, rfl, rfl, rfl⟩, ⟨_, _, _, rfl, rfl, rfl, rfl, rfl⟩⟩

/-- C14, amended: in every store reached from the empty store by calls whose
requested lengths are below 2^31, viewNote on a live slot writes exactly len
bytes, all of them read from inside the 2 * len bytes allocated for the note:
the bytes `C` that create read from its input, followed by len - |C| bytes of
the buffer that were never initialised. -/
theorem viewNote_reads_inside (ops : List Op) (s : State) (i p : Nat)
    (hops : ∀ op ∈ ops, op.lenBelow = true) (hrun : run init ops = Except.ok s)
    (h : s.g_notes[i]? = some (some p)) :
    ∃ (n : Note) (C : List Nat) (o : List Out), deref s.heap p = some n ∧
      viewNote s i = Except.ok (s, o) ∧
      n.buf.length = 2 * n.len ∧
      rawBytes o = n.buf.take n.len ∧ (rawBytes o).length = n.len ∧
      C.length ≤ n.len ∧
      rawBytes o = C.map some ++ List.replicate (n.len - C.length) none := by
  obtain ⟨hl, _⟩ := WF_reachable s ⟨ops, hrun⟩
  obtain ⟨n, hn⟩ := live_index _ _ hl i p h
  have hshape : ShapeInv s.heap :=
    ShapeInv_run ops init s hops hrun (fun m hm => by simp [init] at hm)
  obtain ⟨C, hC, hbuf⟩ := hshape n (deref_mem _ _ _ hn)
  have hlen : n.buf.length = 2 * n.len := by
    rw [hbuf]
    simp only [List.length_append, List.length_map, List.length_replicate]
    omega
  have hraw : n.buf.take n.len = C.map some ++ List.replicate (n.len - C.length) none := by
    rw [hbuf, List.take_append_eq_append_take, List.take_of_length_le (by simp; omega)]
    simp only [List.length_map, List.take_replicate]
    congr 2
    omega
  have hv := viewNote_live s i p n h hn (by omega)
  refine ⟨n, C, _, hn, hv, hlen, ?_, ?_, hC, ?_⟩
  · simp [promptIndex, rawBytes]
  · simp only [promptIndex, rawBytes, List.cons_append, List.nil_append, List.append_nil,
      List.length_take]
    omega
  · simp only [promptIndex, rawBytes, List.cons_append, List.nil_append, List.append_nil]
    exact hraw

/-- Witness of C14, amended: the second note of a store with two notes, created
with length 3 from two bytes. -/
theorem viewNote_reads_inside_witness :
    ∃ (n : Note) (C : List Nat) (o : List Out),
      deref [Obj.live ⟨1, [some 7, none]⟩,
        Obj.live ⟨3, [some 8, some 9, none, none, none, none]⟩] 1 = some n ∧
      viewNote ⟨[Obj.live ⟨1, [some 7, none]⟩,
          Obj.live ⟨3, [some 8, some 9, none, none, none, none]⟩],
        [some 0, some 1], ⟨2, 0, 8, 0⟩, SIZE_MAX⟩ 1 =
        Except.ok (⟨[Obj.live ⟨1, [some 7, none]⟩,
          Obj.live ⟨3, [some 8, some 9, none, none, none, none]⟩],
        [some 0, some 1], ⟨2, 0, 8, 0⟩, SIZE_MAX⟩, o) ∧
      n.buf.length = 2 * n.len ∧
      rawBytes o = n.buf.take n.len ∧ (rawBytes o).length = n.len ∧
      C.length ≤ n.len ∧
      rawBytes o = C.map some ++ List.replicate (n.len - C.length) none :=
  viewNote_reads_inside [Op.addNote 1 [7], Op.addNote 3 [8, 9]] _ 1 1 (by decide) rfl rfl

/-! ## Failing calls and the lifetime counters -/

/-- C15: a call of viewNote or deleteNote that fails, that is, prints the
report for an invalid index, returns the state it was given: slots, notes and
counters are unchanged, and this is what both do whenever safeIndex rejects the
index. addNote has no failing return: whenever it returns it has appended a
slot and reported its index. -/
theorem failing_calls_keep_state (s : State) (i L : Nat) (input : List Nat) :
    (∀ s1 o, viewNote s i = Except.ok (s1, o) → Out.str "Invalid index.\n" ∈ o → s1 = s) ∧
    (∀ s1 o, deleteNote s i = Except.ok (s1, o) → Out.str "Invalid index.\n" ∈ o → s1 = s) ∧
    (safeIndex s i = false →
      viewNote s i = Except.ok (s, promptIndex ++ [Out.str "Invalid index.\n"]) ∧
      deleteNote s i = Except.ok (s, promptIndex ++ [Out.str "Invalid index.\n"])) ∧
    (∀ s1 o, addNote s L input = Except.ok (s1, o) →
      s1.g_notes = s.g_notes ++ [some s.heap.length] ∧
      reportedIndex o = some s.g_notes.length) := by
  refine ⟨fun s1 o h _ => viewNote_state s s1 i o h, ?_, ?_, ?_⟩
  · intro s1 o h hfail
    rcases deleteNote_state s s1 i o h with ⟨_, h1, _⟩ | ⟨p, n, _, _, _, h2⟩
    · exact h1
    · subst h2
      simp [promptIndex] at hfail
  · intro h
    exact ⟨viewNote_invalid s i h, deleteNote_invalid s i h⟩
  · intro s1 o h
    obtain ⟨_, h1, h2⟩ := addNote_state s s1 L input o h
    subst h1 h2
    exact ⟨rfl, reportedIndex_addNote _ _⟩

/-- Witness of C15: index 5 on the store that holds one note. -/
theorem failing_calls_keep_state_witness :
    safeIndex storeOne 5 = false ∧
    viewNote storeOne 5 = Except.ok (storeOne, promptIndex ++ [Out.str "Invalid index.\n"]) ∧
    deleteNote storeOne 5 = Except.ok (storeOne, promptIndex ++ [Out.str "Invalid index.\n"]) :=
  ⟨rfl, (failing_calls_keep_state storeOne 5 0 []).2.2.1 rfl⟩

/-- C18: no call makes a lifetime counter smaller. After every call that
returns, notes_created, notes_deleted, total_alloc and total_freed are each at
least what they were, and clearAllNotes leaves all four exactly as they were. -/
theorem counters_monotone (s s1 : State) (op : Op) (o : List Out)
    (h : step s op = Except.ok (s1, o)) :
    s.secureStats.notes_created ≤ s1.secureStats.notes_created ∧
    s.secureStats.notes_deleted ≤ s1.secureStats.notes_deleted ∧
    s.secureStats.total_alloc ≤ s1.secureStats.total_alloc ∧
    s.secureStats.total_freed ≤ s1.secureStats.total_freed ∧
    (op = Op.clearAllNotes → s1.secureStats = s.secureStats) := by
  cases op with
  | addNote len input =>
    obtain ⟨_, h1, _⟩ := addNote_state s s1 len input o h
    subst h1
    exact ⟨Nat.le_succ _, Nat.le_refl _, Nat.le_add_right _ _, Nat.le_refl _,
      fun e => by cases e⟩
  | viewNote idx =>
    rw [viewNote_state s s1 idx o h]
    exact ⟨Nat.le_refl _, Nat.le_refl _, Nat.le_refl _, Nat.le_refl _, fun _ => rfl⟩
  | deleteNote idx =>
    rcases deleteNote_state s s1 idx o h with ⟨_, h1, _⟩ | ⟨p, n, _, _, h1, _⟩
    · rw [h1]
      exact ⟨Nat.le_refl _, Nat.le_refl _, Nat.le_refl _, Nat.le_refl _, fun _ => rfl⟩
    · subst h1
      exact ⟨Nat.le_refl _, Nat.le_succ _, Nat.le_refl _, Nat.le_succ _, fun e => by cases e⟩
  | viewDeletedNote idx =>
    obtain ⟨_, _, h1⟩ := viewDeletedNote_state s s1 idx o h
    rw [h1]
    exact ⟨Nat.le_refl _, Nat.le_refl _, Nat.le_refl _, Nat.le_refl _, fun _ => rfl⟩
  | showSafeStats =>
    rw [showSafeStats_state s s1 o h]
    exact ⟨Nat.le_refl _, Nat.le_refl _, Nat.le_refl _, Nat.le_refl _, fun _ => rfl⟩
  | showNoteSummary =>
    rw [showNoteSummary_state s s1 o h]
    exact ⟨Nat.le_refl _, Nat.le_refl _, Nat.le_refl _, Nat.le_refl _, fun _ => rfl⟩
  | clearAllNotes =>
    obtain ⟨heap, _, h1, _⟩ := clearAllNotes_state s s1 o h
    subst h1
    exact ⟨Nat.le_refl _, Nat.le_refl _, Nat.le_refl _, Nat.le_refl _, fun _ => rfl⟩

/-- Witness of C18: deleteNote on the first of two notes. -/
theorem counters_monotone_witness :
    ∃ s1 o, step storeTwo (Op.deleteNote 0) = Except.ok (s1, o) ∧
      storeTwo.secureStats.notes_created ≤ s1.secureStats.notes_created ∧
      storeTwo.secureStats.notes_deleted ≤ s1.secureStats.notes_deleted ∧
      storeTwo.secureStats.total_alloc ≤ s1.secureStats.total_alloc ∧
      storeTwo.secureStats.total_freed ≤ s1.secureStats.total_freed ∧
      (Op.deleteNote 0 = Op.clearAllNotes → s1.secureStats = storeTwo.secureStats) :=
  ⟨_, _, rfl, counters_monotone storeTwo _ (Op.deleteNote 0) _ rfl⟩

/-! ## Clearing the store -/

theorem count_freed_set (heap : List Obj) (p : Nat) (n : Note) (h : deref heap p = some n) :
    (heap.set p Obj.freed).count Obj.freed = heap.count Obj.freed + 1 := by
  have hp := deref_lt heap p n h
  have hget : heap[p] = Obj.live n := by
    unfold deref at h
    rw [List.getElem?_eq_getElem hp] at h
    split at h
    · rename_i m hm
      simp only [Option.some.injEq] at hm h
      rw [hm, h]
    · cases h
  rw [List.count_set _ _ _ _ hp, hget]
  simp

theorem freeAll_spec (g : List (Option Nat)) :
    ∀ heap, Live heap g → Distinct g →
      ∃ heap1, freeAll g heap = Except.ok heap1 ∧ heap1.length = heap.length ∧
        (∀ p, some p ∈ g → heap1[p]? = some Obj.freed) ∧
        (∀ q, some q ∉ g → heap1[q]? = heap[q]?) ∧
        heap1.count Obj.freed = heap.count Obj.freed + (g.filter Option.isSome).length := by
  induction g with
  | nil =>
    intro heap _ _
    exact ⟨heap, rfl, rfl, fun p hp => absurd hp (List.not_mem_nil _), fun _ _ => rfl, rfl⟩
  | cons a g ih =>
    intro heap hl hd
    have hd1 : Distinct g := fun i j p hi hj => by
      have := hd (i + 1) (j + 1) p (by simpa using hi) (by simpa using hj)
      omega
    cases a with
    | none =>
      obtain ⟨heap1, h1, h2, h3, h4, h5⟩ :=
        ih heap (fun p hp => hl p (List.mem_cons_of_mem _ hp)) hd1
      refine ⟨heap1, by simpa only [freeAll] using h1, h2, ?_, ?_, ?_⟩
      · intro p hp
        simp only [List.mem_cons, reduceCtorEq, false_or] at hp
        exact h3 p hp
      · intro q hq
        exact h4 q (fun hmem => hq (List.mem_cons_of_mem _ hmem))
      · simpa using h5
    | some q =>
      obtain ⟨n, hn⟩ := hl q (List.mem_cons_self _ _)
      have hq : some q ∉ g := by
        intro hmem
        obtain ⟨j, hj⟩ := List.mem_iff_getElem?.mp hmem
        have := hd 0 (j + 1) q (by simp) (by simpa using hj)
        omega
      have hl1 : Live (heap.set q Obj.freed) g := by
        intro p hp
        obtain ⟨m, hm⟩ := hl p (List.mem_cons_of_mem _ hp)
        have hne : q ≠ p := by
          intro heq
          subst heq
          exact hq hp
        exact ⟨m, by rw [deref_set_ne _ _ _ _ hne]; exact hm⟩
      obtain ⟨heap1, h1, h2, h3, h4, h5⟩ := ih (heap.set q Obj.freed) hl1 hd1
      refine ⟨heap1, by simp only [freeAll, hn]; exact h1, by simpa using h2, ?_, ?_, ?_⟩
      · intro p hp
        simp only [List.mem_cons, Option.some.injEq] at hp
        rcases hp with hp | hp
        · subst hp
          rw [h4 p hq, List.getElem?_set_self (deref_lt _ _ _ hn)]
        · exact h3 p hp
      · intro r hr
        simp only [List.mem_cons, Option.some.injEq, not_or] at hr
        rw [h4 r hr.2, List.getElem?_set_ne (fun e => hr.1 e.symm)]
      · rw [h5, count_freed_set heap q n hn]
        simp only [List.filter_cons, Option.isSome_some, if_true, List.length_cons]
        omega

theorem clearAllNotes_spec (s : State) (hs : WF s) :
    ∃ heap1,
      clearAllNotes s =
        Except.ok ({ s with heap := heap1, g_notes := [] },
          [Out.log "Cleared all notes" none, Out.str "All notes cleared.\n"]) ∧
      heap1.length = s.heap.length ∧
      (∀ p, some p ∈ s.g_notes → heap1[p]? = some Obj.freed) ∧
      (∀ q, some q ∉ s.g_notes → heap1[q]? = s.heap[q]?) ∧
      heap1.count Obj.freed = s.heap.count Obj.freed + activeCount s := by
  obtain ⟨hl, hd⟩ := hs
  obtain ⟨heap1, h1, h2, h3, h4, h5⟩ := freeAll_spec s.g_notes s.heap hl hd
  refine ⟨heap1, ?_, h2, h3, h4, h5⟩
  unfold clearAllNotes
  rw [h1]

/-- C16, as stated, fails on the code: clearAllNotes returns nothing, and what it
prints does not tell the number of notes. On the empty store and on the store
with two live notes it prints the same two items, none of them a number, and it
leaves every counter as it was. -/
theorem clearAllNotes_reports_no_count :
    ∃ s0 s2 o,
      clearAllNotes init = Except.ok (s0, o) ∧ clearAllNotes storeTwo = Except.ok (s2, o) ∧
      activeCount init = 0 ∧ activeCount storeTwo = 2 ∧
      o = [Out.log "Cleared all notes" none, Out.str "All notes cleared.\n"] ∧
      s2.secureStats = storeTwo.secureStats :=
  ⟨_, _, _, rfl, rfl, rfl, rfl, rfl, rfl⟩

/-- C16, amended: on every reachable store with N live notes, clearAllNotes
succeeds, frees exactly the N notes of the live slots (N more objects of the
heap are freed, every other object is untouched) and removes every slot; it
returns no count and prints only the log line and "All notes cleared.". -/
theorem clearAllNotes_frees_live (s : State) (hs : Reachable s) :
    ∃ heap1,
      clearAllNotes s =
        Except.ok ({ s with heap := heap1, g_notes := [] },
          [Out.log "Cleared all notes" none, Out.str "All notes cleared.\n"]) ∧
      heap1.length = s.heap.length ∧
      (∀ p, some p ∈ s.g_notes → heap1[p]? = some Obj.freed) ∧
      (∀ q, some q ∉ s.g_notes → heap1[q]? = s.heap[q]?) ∧
      heap1.count Obj.freed = s.heap.count Obj.freed + activeCount s :=
  clearAllNotes_spec s (WF_reachable s hs)

/-- Witness of C16, amended: the store with two live notes. -/
theorem clearAllNotes_frees_live_witness :
    ∃ heap1,
      clearAllNotes storeTwo =
        Except.ok ({ storeTwo with heap := heap1, g_notes := [] },
          [Out.log "Cleared all notes" none, Out.str "All notes cleared.\n"]) ∧
      heap1.length = storeTwo.heap.length ∧
      (∀ p, some p ∈ storeTwo.g_notes → heap1[p]? = some Obj.freed) ∧
      (∀ q, some q ∉ storeTwo.g_notes → heap1[q]? = storeTwo.heap[q]?) ∧
      heap1.count Obj.freed = storeTwo.heap.count Obj.freed + activeCount storeTwo :=
  clearAllNotes_frees_live storeTwo ⟨[Op.addNote 1 [7], Op.addNote 1 [8]], rfl⟩

/-- C17: on every reachable store clearAllNotes succeeds, and in the state it
leaves the statistics report 0 active notes and 0 characters stored and the
note summary has no line. -/
theorem clearAllNotes_then_empty (s : State) (hs : Reachable s) :
    ∃ s1 o1, clearAllNotes s = Except.ok (s1, o1) ∧
      activeCount s1 = 0 ∧ activeBytes s1 = 0 ∧
      activeStats s1.heap s1.g_notes (0, 0) = Except.ok (0, 0) ∧
      showSafeStats s1 =
        Except.ok
          (s1, [Out.str "\nStatistics:\n",
               Out.str " - Active notes: ", Out.num 0, Out.str "\n",
               Out.str " - Total characters stored: ", Out.num 0, Out.str "\n",
               Out.str " - ", Out.str "notes_created", Out.str ": ",
                 Out.num s.secureStats.notes_created, Out.str "\n",
               Out.str " - ", Out.str "notes_deleted", Out.str ": ",
                 Out.num s.secureStats.notes_deleted, Out.str "\n",
               Out.str " - ", Out.str "total_alloc", Out.str ": ",
                 Out.num s.secureStats.total_alloc, Out.str "\n",
               Out.str " - ", Out.str "total_freed", Out.str ": ",
                 Out.num s.secureStats.total_freed, Out.str "\n"]) ∧
      showNoteSummary s1 = Except.ok (s1, [Out.str "\nNote Summary:\n"]) := by
  obtain ⟨heap1, h1, _⟩ := clearAllNotes_spec s (WF_reachable s hs)
  exact ⟨_, _, h1, rfl, rfl, rfl, rfl, rfl⟩

/-- Witness of C17: the store with two live notes. -/
theorem clearAllNotes_then_empty_witness :
    ∃ s1 o1, clearAllNotes storeTwo = Except.ok (s1, o1) ∧
      activeCount s1 = 0 ∧ activeBytes s1 = 0 ∧
      activeStats s1.heap s1.g_notes (0, 0) = Except.ok (0, 0) ∧
      showSafeStats s1 =
        Except.ok
          (s1, [Out.str "\nStatistics:\n",
               Out.str " - Active notes: ", Out.num 0, Out.str "\n",
               Out.str " - Total characters stored: ", Out.num 0, Out.str "\n",
               Out.str " - ", Out.str "notes_created", Out.str ": ",
                 Out.num storeTwo.secureStats.notes_created, Out.str "\n",
               Out.str " - ", Out.str "notes_deleted", Out.str ": ",
                 Out.num storeTwo.secureStats.notes_deleted, Out.str "\n",
               Out.str " - ", Out.str "total_alloc", Out.str ": ",
                 Out.num storeTwo.secureStats.total_alloc, Out.str "\n",
               Out.str " - ", Out.str "total_freed", Out.str ": ",
                 Out.num storeTwo.secureStats.total_freed, Out.str "\n"]) ∧
      showNoteSummary s1 = Except.ok (s1, [Out.str "\nNote Summary:\n"]) :=
  clearAllNotes_then_empty storeTwo ⟨[Op.addNote 1 [7], Op.addNote 1 [8]], rfl⟩

/-! ## The statistics and the summary -/

theorem activeStats_spec (heap : List Obj) (g : List (Option Nat)) (hl : Live heap g) :
    ∀ acc : Nat × Nat, activeStats heap g acc =
      Except.ok (acc.1 + (g.filter Option.isSome).length,
        acc.2 + ((g.filterMap (fun x => x.bind (deref heap))).map Note.len).sum) := by
  induction g with
  | nil => intro acc; rfl
  | cons a g ih =>
    have hl1 : Live heap g := fun p hp => hl p (List.mem_cons_of_mem _ hp)
    intro acc
    cases a with
    | none =>
      simp only [activeStats, ih hl1 acc]
      simp
    | some q =>
      obtain ⟨n, hn⟩ := hl q (List.mem_cons_self _ _)
      have hb : (fun x : Option Nat => x.bind (deref heap)) (some q) = some n := hn
      simp only [activeStats, hn, ih hl1]
      have hfm : List.filterMap (fun x : Option Nat => x.bind (deref heap)) (some q :: g) =
          n :: List.filterMap (fun x : Option Nat => x.bind (deref heap)) g :=
        List.filterMap_cons_some hb
      rw [hfm]
      simp only [List.filter_cons, Option.isSome_some, if_true, List.length_cons,
        List.map_cons, List.sum_cons, Except.ok.injEq, Prod.mk.injEq]
      omega

/-- C19: on every reachable store showSafeStats returns the state unchanged and
prints as active notes the number of non-null slots and as total characters the
sum of len over the notes of those slots, followed by the four counters. -/
theorem showSafeStats_reports (s : State) (hs : Reachable s) :
    showSafeStats s =
      Except.ok
        (s, [Out.str "\nStatistics:\n",
             Out.str " - Active notes: ", Out.num (activeCount s), Out.str "\n",
             Out.str " - Total characters stored: ", Out.num (activeBytes s), Out.str "\n",
             Out.str " - ", Out.str "notes_created", Out.str ": ",
               Out.num s.secureStats.notes_created, Out.str "\n",
             Out.str " - ", Out.str "notes_deleted", Out.str ": ",
               Out.num s.secureStats.notes_deleted, Out.str "\n",
             Out.str " - ", Out.str "total_alloc", Out.str ": ",
               Out.num s.secureStats.total_alloc, Out.str "\n",
             Out.str " - ", Out.str "total_freed", Out.str ": ",
               Out.num s.secureStats.total_freed, Out.str "\n"]) := by
  obtain ⟨hl, _⟩ := WF_reachable s hs
  have h := activeStats_spec s.heap s.g_notes hl (0, 0)
  simp only [Nat.zero_add] at h
  unfold showSafeStats
  rw [h]
  rfl

/-- Witness of C19: the store with a tombstone in slot 0 and a live note of
length 3 in slot 1. -/
theorem showSafeStats_reports_witness :
    showSafeStats ⟨[Obj.freed, Obj.live ⟨3, [some 8, some 9, none, none, none, none]⟩],
        [none, some 1], ⟨2, 1, 8, 1⟩, SIZE_MAX⟩ =
      Except.ok
        (⟨[Obj.freed, Obj.live ⟨3, [some 8, some 9, none, none, none, none]⟩],
            [none, some 1], ⟨2, 1, 8, 1⟩, SIZE_MAX⟩,
         [Out.str "\nStatistics:\n",
          Out.str " - Active notes: ", Out.num 1, Out.str "\n",
          Out.str " - Total characters stored: ", Out.num 3, Out.str "\n",
          Out.str " - ", Out.str "notes_created", Out.str ": ", Out.num 2, Out.str "\n",
          Out.str " - ", Out.str "notes_deleted", Out.str ": ", Out.num 1, Out.str "\n",
          Out.str " - ", Out.str "total_alloc", Out.str ": ", Out.num 8, Out.str "\n",
          Out.str " - ", Out.str "total_freed", Out.str ": ", Out.num 1, Out.str "\n"]) :=
  showSafeStats_reports _ ⟨[Op.addNote 1 [7], Op.addNote 3 [8, 9], Op.deleteNote 0], rfl⟩

theorem summaryFrom_spec (heap : List Obj) (g : List (Option Nat)) (hl : Live heap g) :
    ∀ k, ∃ es, summaryFrom heap g k = Except.ok es ∧
      es.Pairwise (fun a b => a.1 < b.1) ∧ (∀ e ∈ es, k ≤ e.1) ∧
      ∀ i L, (i, L) ∈ es ↔
        ∃ j p n, i = k + j ∧ g[j]? = some (some p) ∧ deref heap p = some n ∧ n.len = L := by
  induction g with
  | nil =>
    intro k
    refine ⟨[], rfl, List.Pairwise.nil, fun e he => absurd he (List.not_mem_nil _), ?_⟩
    intro i L
    constructor
    · intro h; exact absurd h (List.not_mem_nil _)
    · rintro ⟨j, p, n, _, hj, _⟩; simp at hj
  | cons a g ih =>
    have hl1 : Live heap g := fun p hp => hl p (List.mem_cons_of_mem _ hp)
    intro k
    obtain ⟨es, h1, h2, h3, h4⟩ := ih hl1 (k + 1)
    cases a with
    | none =>
      refine ⟨es, by simpa only [summaryFrom] using h1, h2,
        fun e he => Nat.le_of_succ_le (h3 e he), ?_⟩
      intro i L
      rw [h4]
      constructor
      · rintro ⟨j, p, n, hi, hj, hn, hL⟩
        exact ⟨j + 1, p, n, by omega, by simpa using hj, hn, hL⟩
      · rintro ⟨j, p, n, hi, hj, hn, hL⟩
        cases j with
        | zero => simp at hj
        | succ j => exact ⟨j, p, n, by omega, by simpa using hj, hn, hL⟩
    | some q =>
      obtain ⟨m, hm⟩ := hl q (List.mem_cons_self _ _)
      refine ⟨(k, m.len) :: es, by simp only [summaryFrom, hm, h1], ?_, ?_, ?_⟩
      · rw [List.pairwise_cons]
        exact ⟨fun e he => Nat.lt_of_succ_le (h3 e he), h2⟩
      · intro e he
        rcases List.mem_cons.mp he with he | he
        · rw [he]
        · exact Nat.le_of_succ_le (h3 e he)
      · intro i L
        rw [List.mem_cons, h4]
        constructor
        · rintro (h | ⟨j, p, n, hi, hj, hn, hL⟩)
          · simp only [Prod.mk.injEq] at h
            exact ⟨0, q, m, by omega, by simp, hm, h.2.symm⟩
          · exact ⟨j + 1, p, n, by omega, by simpa using hj, hn, hL⟩
        · rintro ⟨j, p, n, hi, hj, hn, hL⟩
          cases j with
          | zero =>
            simp only [List.getElem?_cons_zero, Option.some.injEq] at hj
            subst hj
            rw [hm] at hn
            simp only [Option.some.injEq] at hn
            subst hn
            exact Or.inl (by simp only [Prod.mk.injEq]; exact ⟨by omega, hL.symm⟩)
          | succ j => exact Or.inr ⟨j, p, n, by omega, by simpa using hj, hn, hL⟩

/-- C20: on every reachable store showNoteSummary returns the state unchanged
and prints, after its heading, one line per pair of a list `es` of
(index, length) pairs that is strictly ascending in the index and holds (i, L)
exactly when slot i is live and its note has len L: one pair for each live
slot, none for a tombstone. -/
theorem showNoteSummary_lists_live (s : State) (hs : Reachable s) :
    ∃ es, summaryFrom s.heap s.g_notes 0 = Except.ok es ∧
      showNoteSummary s =
        Except.ok (s, Out.str "\nNote Summary:\n" :: (es.map summaryLine).flatten) ∧
      es.Pairwise (fun a b => a.1 < b.1) ∧
      ∀ i L, (i, L) ∈ es ↔ ∃ n, slotNote s i = some n ∧ n.len = L := by
  obtain ⟨hl, _⟩ := WF_reachable s hs
  obtain ⟨es, h1, h2, _, h4⟩ := summaryFrom_spec s.heap s.g_notes hl 0
  refine ⟨es, h1, showNoteSummary_ok s es h1, h2, ?_⟩
  intro i L
  rw [h4]
  constructor
  · rintro ⟨j, p, n, hi, hj, hn, hL⟩
    have hij : i = j := by omega
    subst hij
    exact ⟨n, by simp only [slotNote, hj]; exact hn, hL⟩
  · rintro ⟨n, hn, hL⟩
    unfold slotNote at hn
    split at hn
    · rename_i p hp
      exact ⟨i, p, n, by omega, hp, hn, hL⟩
    · cases hn

/-- Witness of C20: the store with a live note of length 1 in slot 0, a
tombstone in slot 1 and a live note of length 2 in slot 2. -/
theorem showNoteSummary_lists_live_witness :
    ∃ es,
      summaryFrom
        [Obj.live ⟨1, [some 7, none]⟩, Obj.freed, Obj.live ⟨2, [some 9, some 9, none, none]⟩]
        [some 0, none, some 2] 0 = Except.ok es ∧
      showNoteSummary
        ⟨[Obj.live ⟨1, [some 7, none]⟩, Obj.freed,
          Obj.live ⟨2, [some 9, some 9, none, none]⟩],
          [some 0, none, some 2], ⟨3, 1, 8, 1⟩, SIZE_MAX⟩ =
        Except.ok
          (⟨[Obj.live ⟨1, [some 7, none]⟩, Obj.freed,
            Obj.live ⟨2, [some 9, some 9, none, none]⟩],
            [some 0, none, some 2], ⟨3, 1, 8, 1⟩, SIZE_MAX⟩,
           Out.str "\nNote Summary:\n" :: (es.map summaryLine).flatten) ∧
      es.Pairwise (fun a b => a.1 < b.1) ∧
      ∀ i L, (i, L) ∈ es ↔
        ∃ n, slotNote
          ⟨[Obj.live ⟨1, [some 7, none]⟩, Obj.freed,
            Obj.live ⟨2, [some 9, some 9, none, none]⟩],
            [some 0, none, some 2], ⟨3, 1, 8, 1⟩, SIZE_MAX⟩ i = some n ∧ n.len = L :=
  showNoteSummary_lists_live _
    ⟨[Op.addNote 1 [7], Op.addNote 1 [8], Op.deleteNote 1, Op.addNote 2 [9, 9]], rfl⟩

/-! ## Repeated reads -/

theorem runTrace_viewNote_replicate (s : State) (i : Nat) (o : List Out)
    (h : viewNote s i = Except.ok (s, o)) :
    ∀ k, runTrace s (List.replicate k (Op.viewNote i)) = Except.ok (List.replicate k (s, o)) := by
  intro k
  induction k with
  | zero => rfl
  | succ k ih =>
    simp only [List.replicate_succ, runTrace, step, h, ih]

/-- C21: when slot i holds a live note, every call of viewNote on i that returns
gives back the state it was given (slots, notes and counters unchanged), so any
number of repeated calls return the same items; and the call does return, with
the first len bytes of the buffer, whenever len does not exceed the buffer. -/
theorem viewNote_repeatable (s : State) (i p : Nat) (n : Note)
    (h : s.g_notes[i]? = some (some p)) (hn : deref s.heap p = some n) :
    (∀ s1 o, viewNote s i = Except.ok (s1, o) →
      s1 = s ∧
      ∀ k, runTrace s (List.replicate k (Op.viewNote i)) =
        Except.ok (List.replicate k (s, o))) ∧
    (n.len ≤ n.buf.length →
      ∃ o, viewNote s i = Except.ok (s, o) ∧ rawBytes o = n.buf.take n.len) := by
  constructor
  · intro s1 o hv
    have hs := viewNote_state s s1 i o hv
    subst hs
    exact ⟨rfl, runTrace_viewNote_replicate s1 i o hv⟩
  · intro hb
    refine ⟨_, viewNote_live s i p n h hn hb, ?_⟩
    simp [promptIndex, rawBytes]

/-- Witness of C21: three reads of the note in slot 0 of the store with one note. -/
theorem viewNote_repeatable_witness :
    ∃ o, viewNote storeOne 0 = Except.ok (storeOne, o) ∧
      rawBytes o = [some 7] ∧
      runTrace storeOne (List.replicate 3 (Op.viewNote 0)) =
        Except.ok (List.replicate 3 (storeOne, o)) :=
  ⟨_, rfl, rfl,
    ((viewNote_repeatable storeOne 0 0 ⟨1, [some 7, none]⟩ rfl rfl).1 storeOne _ rfl).2 3⟩

/-! ## The worked example -/

/-- C22, as stated, fails on the code: after addNote with length 5 and content
"ab" and deleteNote on index 0, the statistics show total_alloc 10 and
total_freed 1, not 5 and 5. -/
theorem example_statistics_differ :
    ∃ s, run init [Op.addNote 5 [97, 98], Op.deleteNote 0] = Except.ok s ∧
      showSafeStats s =
        Except.ok
          (s, [Out.str "\nStatistics:\n",
               Out.str " - Active notes: ", Out.num 0, Out.str "\n",
               Out.str " - Total characters stored: ", Out.num 0, Out.str "\n",
               Out.str " - ", Out.str "notes_created", Out.str ": ", Out.num 1, Out.str "\n",
               Out.str " - ", Out.str "notes_deleted", Out.str ": ", Out.num 1, Out.str "\n",
               Out.str " - ", Out.str "total_alloc", Out.str ": ", Out.num 10, Out.str "\n",
               Out.str " - ", Out.str "total_freed", Out.str ": ", Out.num 1, Out.str "\n"]) ∧
      s.secureStats.total_alloc ≠ 5 ∧ s.secureStats.total_freed ≠ 5 :=
  ⟨_, rfl, rfl, by decide, by decide⟩

/-- C22, amended: from the empty store, addNote with length 5 and content "ab"
reports index 0, and after deleteNote on index 0 the statistics are
active_count 0, active_bytes 0, notes_created 1, notes_deleted 1 and
total_alloc 10, the 2 * 5 bytes that addNote allocated. -/
theorem example_statistics :
    ∃ s1 o1 s2 o2, addNote init 5 [97, 98] = Except.ok (s1, o1) ∧
      reportedIndex o1 = some 0 ∧
      deleteNote s1 0 = Except.ok (s2, o2) ∧
      activeStats s2.heap s2.g_notes (0, 0) = Except.ok (0, 0) ∧
      activeCount s2 = 0 ∧ activeBytes s2 = 0 ∧
      s2.secureStats.notes_created = 1 ∧ s2.secureStats.notes_deleted = 1 ∧
      s2.secureStats.total_alloc = 10 :=
  ⟨_, _, _, _, rfl, rfl, rfl, rfl, rfl, rfl, rfl, rfl, rfl⟩

/-! ## No slot refers to a freed note -/

theorem viewNote_no_uaf (s : State) (i : Nat) (hl : Live s.heap s.g_notes) :
    viewNote s i ≠ Except.error Fault.useAfterFree := by
  cases hsafe : safeIndex s i with
  | false => rw [viewNote_invalid s i hsafe]; intro h; cases h
  | true =>
    obtain ⟨p, hp⟩ := safeIndex_true s i hsafe
    obtain ⟨n, hn⟩ := live_index _ _ hl i p hp
    obtain ⟨h1, h2⟩ := safeIndex_live s i p hp
    unfold viewNote
    rw [h1, h2]
    simp only [Bool.not_true, Bool.false_eq_true, if_false, hn]
    split <;> intro h <;> cases h

theorem viewDeletedNote_no_uaf (s : State) (i : Nat) (hl : Live s.heap s.g_notes) :
    viewDeletedNote s i ≠ Except.error Fault.useAfterFree := by
  unfold viewDeletedNote
  split
  · intro h; cases h
  · split
    · intro h; cases h
    · rename_i hlen
      have hlt : s.cachedIdx < s.g_notes.length := Nat.lt_of_not_le hlen
      have hget : s.g_notes.getD s.cachedIdx none = s.g_notes[s.cachedIdx] := by
        rw [List.getD_eq_getElem?_getD, List.getElem?_eq_getElem hlt]; rfl
      rw [hget]
      cases hc : s.g_notes[s.cachedIdx] with
      | none => intro h; cases h
      | some p =>
        have hp : s.g_notes[s.cachedIdx]? = some (some p) := by
          rw [List.getElem?_eq_getElem hlt, hc]
        obtain ⟨n, hn⟩ := live_index _ _ hl _ p hp
        simp only [hn]
        split <;> intro h <;> cases h

theorem viewDeletedNote_null (s : State) (i : Nat) (h1 : s.cachedIdx ≠ SIZE_MAX)
    (h2 : s.g_notes[s.cachedIdx]? = some none) :
    viewDeletedNote s i =
      Except.ok (s, [Out.str "Attempting to display deleted note at index ",
        Out.num s.cachedIdx, Out.str "...\n", Out.str "[dangling pointer] ", Out.ptr none,
        Out.str "\n"]) := by
  have hlt : s.cachedIdx < s.g_notes.length := by
    rcases Nat.lt_or_ge s.cachedIdx s.g_notes.length with h | h
    · exact h
    · rw [List.getElem?_eq_none h] at h2; cases h2
  have hget : s.g_notes.getD s.cachedIdx none = none := by
    rw [List.getD_eq_getElem?_getD, h2]; rfl
  unfold viewDeletedNote
  rw [if_neg h1, if_neg (Nat.not_le.mpr hlt), hget]
  rfl

theorem viewDeletedNote_out_of_range (s : State) (i : Nat) (h1 : s.cachedIdx ≠ SIZE_MAX)
    (h2 : s.g_notes.length ≤ s.cachedIdx) :
    viewDeletedNote s i =
      Except.ok ({ s with cachedIdx := SIZE_MAX },
        [Out.str "Index out of range. Resetting cache.\n"]) := by
  unfold viewDeletedNote
  rw [if_neg h1, if_pos h2]

/-- C23: in every reachable state each entry of g_notes is null or refers to an
allocated note, never to a freed one. Hence viewNote and viewDeletedNote never
use a freed note, showSafeStats and showNoteSummary run to their end, and
viewDeletedNote with a cached index takes the null branch on a deleted slot and
the out-of-range branch once the index is beyond the slots. -/
theorem no_slot_refers_to_freed (s : State) (hs : Reachable s) :
    (∀ p, some p ∈ s.g_notes → ∃ n, deref s.heap p = some n) ∧
    (∀ i, viewNote s i ≠ Except.error Fault.useAfterFree) ∧
    (∀ i, viewDeletedNote s i ≠ Except.error Fault.useAfterFree) ∧
    (∃ o, showSafeStats s = Except.ok (s, o)) ∧
    (∃ o, showNoteSummary s = Except.ok (s, o)) ∧
    (∀ i, s.cachedIdx ≠ SIZE_MAX → s.g_notes[s.cachedIdx]? = some none →
      viewDeletedNote s i =
        Except.ok (s, [Out.str "Attempting to display deleted note at index ",
          Out.num s.cachedIdx, Out.str "...\n", Out.str "[dangling pointer] ", Out.ptr none,
          Out.str "\n"])) ∧
    (∀ i, s.cachedIdx ≠ SIZE_MAX → s.g_notes.length ≤ s.cachedIdx →
      viewDeletedNote s i =
        Except.ok ({ s with cachedIdx := SIZE_MAX },
          [Out.str "Index out of range. Resetting cache.\n"])) := by
  obtain ⟨hl, _⟩ := WF_reachable s hs
  obtain ⟨es, hes, _⟩ := summaryFrom_spec s.heap s.g_notes hl 0
  exact ⟨hl, fun i => viewNote_no_uaf s i hl, fun i => viewDeletedNote_no_uaf s i hl,
    showSafeStats_ok s _ (activeStats_spec s.heap s.g_notes hl (0, 0)),
    ⟨_, showNoteSummary_ok s es hes⟩,
    fun i h1 h2 => viewDeletedNote_null s i h1 h2,
    fun i h1 h2 => viewDeletedNote_out_of_range s i h1 h2⟩

/-- Witness of C23: index 0 is cached, a note is created in slot 0 and deleted;
viewDeletedNote then takes the null branch. -/
theorem no_slot_refers_to_freed_witness :
    ∃ s, run init [Op.viewDeletedNote 0, Op.addNote 1 [7], Op.deleteNote 0] = Except.ok s ∧
      s.cachedIdx = 0 ∧ s.g_notes = [none] ∧ s.heap = [Obj.freed] ∧
      viewDeletedNote s 9 =
        Except.ok (s, [Out.str "Attempting to display deleted note at index ",
          Out.num s.cachedIdx, Out.str "...\n", Out.str "[dangling pointer] ", Out.ptr none,
          Out.str "\n"]) :=
  ⟨_, rfl, rfl, rfl, rfl,
    (no_slot_refers_to_freed _
      ⟨[Op.viewDeletedNote 0, Op.addNote 1 [7], Op.deleteNote 0], rfl⟩).2.2.2.2.2.1 9
      (by decide) rfl⟩

/-! ## The allocation size -/

/-- C24: for every 32-bit len the allocation size of addNote is (len * 2) mod 2^32;
len bytes fit into it exactly when len < 2^31; from 2^31 on it is
2 * len - 2^32, which is below len, and it is 0 for len = 2^31. addNote gives
the buffer that size, and with at least len bytes of input its read writes past
the buffer exactly when len >= 2^31. -/
theorem allocSize_fits_iff (len : Nat) (hlen : len < UINT32_MOD) :
    (len ≤ (len * 2) % UINT32_MOD ↔ len < 2147483648) ∧
    (2147483648 ≤ len →
      (len * 2) % UINT32_MOD = 2 * len - UINT32_MOD ∧ (len * 2) % UINT32_MOD < len) ∧
    (2147483648 * 2) % UINT32_MOD = 0 ∧
    (∀ s input s1 o, addNote s len input = Except.ok (s1, o) →
      ∃ n, deref s1.heap s.heap.length = some n ∧ n.len = len ∧
        n.buf.length = (len * 2) % UINT32_MOD) ∧
    (∀ s input, len ≤ input.length →
      (addNote s len input = Except.error Fault.heapOverflow ↔ 2147483648 ≤ len)) := by
  have hbig : 2147483648 ≤ len → (len * 2) % UINT32_MOD = 2 * len - UINT32_MOD := by
    intro h
    show (len * 2) % 4294967296 = 2 * len - 4294967296
    have hlen1 : len < 4294967296 := hlen
    omega
  have hsmall : len < 2147483648 → (len * 2) % UINT32_MOD = len * 2 := mul_two_mod_small len
  have hiff : len ≤ (len * 2) % UINT32_MOD ↔ len < 2147483648 := by
    constructor
    · intro h
      rcases Nat.lt_or_ge len 2147483648 with h1 | h1
      · exact h1
      · rw [hbig h1] at h
        have hlen1 : len < 4294967296 := hlen
        have : 2 * len - 4294967296 < len := by omega
        exact absurd h (Nat.not_le.mpr this)
    · intro h
      rw [hsmall h]
      omega
  refine ⟨hiff, ?_, rfl, ?_, ?_⟩
  · intro h
    refine ⟨hbig h, ?_⟩
    rw [hbig h]
    have hlen1 : len < 4294967296 := hlen
    show 2 * len - 4294967296 < len
    omega
  · intro s input s1 o h
    obtain ⟨hfit, h1, _⟩ := addNote_state s s1 len input o h
    subst h1
    refine ⟨_, deref_append_new _ _, rfl, ?_⟩
    simp only [List.length_append, List.length_map, List.length_replicate]
    omega
  · intro s input hin
    have htake : (input.take len).length = len := by
      rw [List.length_take]; omega
    rw [addNote_eq, htake]
    constructor
    · intro h
      split at h
      · rename_i hlt
        rcases Nat.lt_or_ge len 2147483648 with h1 | h1
        · exact absurd (hiff.mpr h1) (Nat.not_le.mpr hlt)
        · exact h1
      · cases h
    · intro h
      have : (len * 2) % UINT32_MOD < len := by
        rcases Nat.lt_or_ge ((len * 2) % UINT32_MOD) len with h1 | h1
        · exact h1
        · exact absurd (hiff.mp h1) (Nat.not_lt.mpr h)
      rw [if_pos this]

/-- Witness of C24: len = 2^31 + 1 with two bytes of input; the allocation has
2 bytes and the read of 2^31 + 1 bytes from a longer input leaves it. -/
theorem allocSize_fits_iff_witness :
    (2147483649 * 2) % UINT32_MOD = 2 * 2147483649 - UINT32_MOD ∧
    (2147483649 * 2) % UINT32_MOD < 2147483649 :=
  (allocSize_fits_iff 2147483649 (by decide)).2.1 (by decide)

/-! ## The copy of processBuffer -/

/-- C25: the memcpy of processBuffer copies line.size() bytes, the whole line,
into the buffer of 64 bytes. It stays inside the buffer exactly when the line
has at most 64 bytes, and then the buffer holds every byte of the line; for a
longer line the copy, and with it processBuffer, writes past the buffer. -/
theorem processBuffer_copy_fits_iff (line : List Nat) :
    processBufferCopy line = memcpy (List.replicate FIXED none) line line.length ∧
    ((∃ tmp, processBufferCopy line = Except.ok tmp) ↔ line.length ≤ FIXED) ∧
    (processBufferCopy line = Except.error Fault.heapOverflow ↔ FIXED < line.length) ∧
    (line.length ≤ FIXED →
      processBufferCopy line =
        Except.ok (line.map some ++ List.replicate (FIXED - line.length) none)) ∧
    (∀ s, FIXED < line.length → processBuffer s line = Except.error Fault.heapOverflow) := by
  have hok : line.length ≤ FIXED →
      processBufferCopy line =
        Except.ok (line.map some ++ List.replicate (FIXED - line.length) none) := by
    intro h
    unfold processBufferCopy memcpy
    rw [if_neg (by simp only [List.length_replicate]; omega)]
    simp
  have herr : FIXED < line.length →
      processBufferCopy line = Except.error Fault.heapOverflow := by
    intro h
    unfold processBufferCopy memcpy
    rw [if_pos (by simp only [List.length_replicate]; exact h)]
  refine ⟨rfl, ⟨?_, fun h => ⟨_, hok h⟩⟩, ⟨?_, herr⟩, hok, ?_⟩
  · rintro ⟨tmp, h⟩
    rcases Nat.lt_or_ge FIXED line.length with h1 | h1
    · rw [herr h1] at h; cases h
    · exact h1
  · intro h
    rcases Nat.lt_or_ge FIXED line.length with h1 | h1
    · exact h1
    · rw [hok h1] at h; cases h
  · intro s h
    unfold processBuffer
    rw [herr h]

/-- Witness of C25: a line of 65 bytes is copied past the buffer, and a line of
three bytes that ends in a NUL is copied whole and printed up to the NUL. -/
theorem processBuffer_copy_fits_iff_witness :
    processBufferCopy (List.replicate 65 120) = Except.error Fault.heapOverflow ∧
    processBuffer init (List.replicate 65 120) = Except.error Fault.heapOverflow ∧
    processBufferCopy [104, 105, 0] =
      Except.ok ([104, 105, 0].map some ++ List.replicate (FIXED - 3) none) ∧
    processBuffer init [104, 105, 0] =
      Except.ok (init, [Out.str "Enter data to process (any length):\n",
        Out.str "Data processed: ", Out.raw [some 104, some 105], Out.str "\n"]) :=
  ⟨(processBuffer_copy_fits_iff (List.replicate 65 120)).2.2.1.mpr (by decide),
   (processBuffer_copy_fits_iff (List.replicate 65 120)).2.2.2.2 init (by decide),
   (processBuffer_copy_fits_iff [104, 105, 0]).2.2.2.1 (by decide), rfl⟩

end Notes

namespace Lib

/-! ## Defects found by running the functions -/

/-- C26, on the code: add_book stores the number of copies it is given without
a check. Called on the initialised library with copies = -1 it returns 1 and
appends a book whose available_copies and total_copies are -1, which is what
check_data_integrity reports as negative available copies. -/
theorem add_book_negative_copies :
    ∃ lib0 lib1 b, initialize_library 0 = Except.ok lib0 ∧
      add_book lib0 "978-0-000000-00-0" "T" "A" GenreType.GENRE_OTHER 2000 1 1 (-1) 0 =
        Except.ok (lib1, 1) ∧
      lib1.books.length = 6 ∧ lib1.books[5]? = some b ∧
      b.isbn = "978-0-000000-00-0" ∧ b.total_copies = -1 ∧ b.available_copies = -1 ∧
      ¬ (0 ≤ b.available_copies) :=
  ⟨_, _, _, rfl, rfl, rfl, rfl, rfl, rfl, rfl, by decide⟩

/-- C27, on the code: a book has one current_borrower_id for all its copies.
After two members each borrow a copy of the same book, the book names the
second member only: the first member has num_borrowed 1 while no book has that
member's id as current_borrower_id. -/
theorem second_borrower_overwrites_first :
    ∃ lib0 lib, initialize_library 0 = Except.ok lib0 ∧
      runCalls lib0
        [Call.create_member "Ann" "ann@example.org" "0123456789"
           MembershipType.MEMBERSHIP_BASIC 0 31536000,
         Call.create_member "Bob" "bob@example.org" "0123456780"
           MembershipType.MEMBERSHIP_BASIC 0 31536000,
         Call.borrow_book 1001 "978-0-123456-78-9" 0 1209600 false,
         Call.borrow_book 1002 "978-0-123456-78-9" 0 1209600 false] = Except.ok lib ∧
      lib.members.map (fun m => (m.member_id, m.num_borrowed)) = [(1001, 1), (1002, 1)] ∧
      lib.books.map (fun b => (b.available_copies, b.current_borrower_id)) =
        [(3, 1002), (3, 0), (4, 0), (2, 0), (1, 0)] ∧
      borrowedCount lib 1001 = 0 ∧ borrowedCount lib 1002 = 1 :=
  ⟨_, _, rfl, rfl, rfl, rfl, rfl, rfl⟩

/-- C30, on the code: the display name of GENRE_SCIFI, "Science Fiction", is
parsed as GENRE_FICTION, because the test for "FICTION" without "NON" comes
before the test for "SCIENCE FICTION". Every other genre is parsed back from
its display name. -/
theorem scifi_parses_as_fiction :
    get_genre_string GenreType.GENRE_SCIFI = "Science Fiction" ∧
    get_genre_from_string (get_genre_string GenreType.GENRE_SCIFI) =
      Except.ok GenreType.GENRE_FICTION ∧
    GenreType.GENRE_FICTION ≠ GenreType.GENRE_SCIFI ∧
    ∀ g, g ≠ GenreType.GENRE_SCIFI →
      get_genre_from_string (get_genre_string g) = Except.ok g := by
  refine ⟨rfl, rfl, by decide, ?_⟩
  intro g hg
  cases g <;> first | rfl | exact absurd rfl hg

/-! ## The borrow limit -/

theorem firstIndex_some {α : Type} (p : α → Bool) (l : List α) :
    ∀ i, firstIndex p l = some i → ∃ a, l[i]? = some a ∧ p a = true := by
  induction l with
  | nil => intro i h; cases h
  | cons x xs ih =>
    intro i h
    simp only [firstIndex] at h
    split at h
    · rename_i hp
      simp only [Option.some.injEq] at h
      subst h
      exact ⟨x, by simp, hp⟩
    · cases hf : firstIndex p xs with
      | none => rw [hf] at h; cases h
      | some j =>
        rw [hf] at h
        simp only [Option.map_some', Option.some.injEq] at h
        subst h
        obtain ⟨a, ha, hpa⟩ := ih j hf
        exact ⟨a, by simpa using ha, hpa⟩

theorem firstIndex_none {α : Type} (p : α → Bool) (l : List α) :
    firstIndex p l = none ↔ ∀ a ∈ l, p a = false := by
  induction l with
  | nil => simp [firstIndex]
  | cons x xs ih =>
    simp only [firstIndex, List.mem_cons, forall_eq_or_imp]
    split
    · rename_i hp
      simp [hp]
    · rename_i hp
      simp only [Option.map_eq_none', ih]
      simp [hp]

theorem get_borrow_limit_le (t : MembershipType) :
    get_borrow_limit t ≤ (MAX_BORROWED_BOOKS : Int) := by
  cases t <;> decide

theorem get_borrow_limit_nonneg (t : MembershipType) : 0 ≤ get_borrow_limit t := by
  cases t <;> decide

theorem record_transaction_members (lib : Library) :
    (record_transaction lib).members = lib.members := by
  unfold record_transaction
  split <;> rfl

theorem record_transaction_books (lib : Library) :
    (record_transaction lib).books = lib.books := by
  unfold record_transaction
  split <;> rfl

theorem add_to_waiting_list_members (lib : Library) (isbn : String) (id now : Int) :
    (add_to_waiting_list lib isbn id now).members = lib.members := by
  unfold add_to_waiting_list
  split
  · rfl
  · split
    · rfl
    · split
      · rfl
      · rw [record_transaction_members]

theorem process_waiting_list_members (lib : Library) (isbn : String) :
    (process_waiting_list lib isbn).members = lib.members := by
  unfold process_waiting_list
  split
  · rfl
  · split
    · rfl
    · split
      · rfl
      · split <;> rfl

theorem firstBorrowed_pos (bb : List Int) :
    ∀ i k j, firstBorrowed bb i k = Except.ok (some j) → 0 < k := by
  intro i k j h
  cases k with
  | zero =>
    cases bb <;> simp [firstBorrowed] at h
  | succ k => exact Nat.succ_pos k

theorem removeBorrowed_step (lib : Library) (m m1 : Member) (isbn : String)
    (h : removeBorrowed lib m isbn = Except.ok m1) :
    m1.membership_type = m.membership_type ∧
    (m1.num_borrowed = m.num_borrowed ∨
      (m1.num_borrowed = m.num_borrowed - 1 ∧ 0 < m.num_borrowed)) := by
  unfold removeBorrowed at h
  split at h
  · cases h
  · simp only [Except.ok.injEq] at h
    subst h
    exact ⟨rfl, Or.inl rfl⟩
  · rename_i i hfirst
    have hpos := firstBorrowed_pos _ _ _ _ hfirst
    split at h
    · simp only [Except.ok.injEq] at h
      subst h
      refine ⟨rfl, Or.inr ⟨rfl, ?_⟩⟩
      omega
    · simp only [Except.ok.injEq] at h
      subst h
      exact ⟨rfl, Or.inl rfl⟩

theorem memberStep_of_same (before : List Member) (m1 : Member) (h : m1 ∈ before) :
    MemberStep before m1 := Or.inl h

theorem memberStep_set (before : List Member) (mi : Nat) (m m1 x : Member)
    (hm : before[mi]? = some m) (hx : x ∈ before.set mi m1)
    (hstep : m1.membership_type = m.membership_type ∧
      (m1.num_borrowed = m.num_borrowed ∨
       (m1.num_borrowed = m.num_borrowed + 1 ∧
         m.num_borrowed < get_borrow_limit m.membership_type) ∨
       (m1.num_borrowed = m.num_borrowed - 1 ∧ 0 < m.num_borrowed))) :
    MemberStep before x := by
  rcases List.mem_or_eq_of_mem_set hx with h | h
  · exact Or.inl h
  · subst h
    exact Or.inr (Or.inr ⟨m, List.getElem?_mem hm, hstep⟩)

theorem withinLimit_of_step (before : List Member) (m1 : Member)
    (hall : ∀ m ∈ before, WithinLimit m) (h : MemberStep before m1) : WithinLimit m1 := by
  rcases h with h | h | ⟨m, hm, ht, hn⟩
  · exact hall m1 h
  · exact ⟨by omega, by rw [h]; exact get_borrow_limit_nonneg _, get_borrow_limit_le _⟩
  · obtain ⟨h0, h1, h2⟩ := hall m hm
    unfold WithinLimit
    rw [ht]
    rcases hn with hn | ⟨hn, hlt⟩ | ⟨hn, hpos⟩
    · rw [hn]; exact ⟨h0, h1, h2⟩
    · rw [hn]; exact ⟨by omega, by omega, h2⟩
    · rw [hn]; exact ⟨by omega, by omega, h2⟩

theorem add_book_members (lib lib1 : Library) (isbn title author : String) (genre : GenreType)
    (year : Int) (pp rp : Rat) (copies now r : Int)
    (h : add_book lib isbn title author genre year pp rp copies now = Except.ok (lib1, r)) :
    lib1.members = lib.members := by
  unfold add_book at h
  split at h
  · simp only [Except.ok.injEq, Prod.mk.injEq] at h; rw [← h.1]
  · split at h
    · simp only [Except.ok.injEq, Prod.mk.injEq] at h; rw [← h.1]
    · split at h
      · cases h
      · simp only [Except.ok.injEq, Prod.mk.injEq] at h; rw [← h.1]

theorem create_member_step (lib lib1 : Library) (name email phone : String)
    (type : MembershipType) (now expiry r : Int)
    (h : create_member lib name email phone type now expiry = Except.ok (lib1, r)) :
    ∀ x ∈ lib1.members, MemberStep lib.members x := by
  unfold create_member at h
  split at h
  · simp only [Except.ok.injEq, Prod.mk.injEq] at h
    rw [← h.1]; exact fun x hx => Or.inl hx
  · split at h
    · simp only [Except.ok.injEq, Prod.mk.injEq] at h
      rw [← h.1]; exact fun x hx => Or.inl hx
    · split at h
      · cases h
      · simp only [Except.ok.injEq, Prod.mk.injEq] at h
        rw [← h.1, record_transaction_members]
        intro x hx
        simp only [List.mem_append, List.mem_singleton] at hx
        rcases hx with hx | hx
        · exact Or.inl hx
        · subst hx; exact Or.inr (Or.inl rfl)

theorem cancel_membership_step (lib lib1 : Library) (member_id r : Int)
    (h : cancel_membership lib member_id = Except.ok (lib1, r)) :
    ∀ x ∈ lib1.members, MemberStep lib.members x := by
  unfold cancel_membership at h
  split at h
  · simp only [Except.ok.injEq, Prod.mk.injEq] at h
    rw [← h.1]; exact fun x hx => Or.inl hx
  · split at h
    · cases h
    · rename_i mi _ _ member hm
      split at h
      · simp only [Except.ok.injEq, Prod.mk.injEq] at h
        rw [← h.1]; exact fun x hx => Or.inl hx
      · split at h
        · simp only [Except.ok.injEq, Prod.mk.injEq] at h
          rw [← h.1]; exact fun x hx => Or.inl hx
        · simp only [Except.ok.injEq, Prod.mk.injEq] at h
          rw [← h.1, record_transaction_members]
          intro x hx
          exact memberStep_set lib.members mi member _ x hm hx ⟨rfl, Or.inl rfl⟩

theorem purchase_book_step (lib lib1 : Library) (member_id : Int) (isbn : String) (now : Int)
    (confirm : Bool) (r : Int)
    (h : purchase_book lib member_id isbn now confirm = Except.ok (lib1, r)) :
    ∀ x ∈ lib1.members, MemberStep lib.members x := by
  unfold purchase_book at h
  split at h
  · simp only [Except.ok.injEq, Prod.mk.injEq] at h
    rw [← h.1]; exact fun x hx => Or.inl hx
  · split at h
    · cases h
    · rename_i mi _ _ member hm
      split at h
      · simp only [Except.ok.injEq, Prod.mk.injEq] at h
        rw [← h.1]; exact fun x hx => Or.inl hx
      · split at h
        · cases h
        · split at h
          · simp only [Except.ok.injEq, Prod.mk.injEq] at h
            rw [← h.1]; exact fun x hx => Or.inl hx
          · split at h
            · simp only [Except.ok.injEq, Prod.mk.injEq] at h
              rw [← h.1]; exact fun x hx => Or.inl hx
            · simp only [Except.ok.injEq, Prod.mk.injEq] at h
              rw [← h.1, record_transaction_members]
              intro x hx
              exact memberStep_set lib.members mi member _ x hm hx ⟨rfl, Or.inl rfl⟩

theorem borrow_book_step (lib lib1 : Library) (member_id : Int) (isbn : String)
    (now due : Int) (join : Bool) (r : Int)
    (h : borrow_book lib member_id isbn now due join = Except.ok (lib1, r)) :
    ∀ x ∈ lib1.members, MemberStep lib.members x := by
  unfold borrow_book at h
  split at h
  · simp only [Except.ok.injEq, Prod.mk.injEq] at h
    rw [← h.1]; exact fun x hx => Or.inl hx
  · split at h
    · cases h
    · rename_i mi _ _ member hm
      split at h
      · simp only [Except.ok.injEq, Prod.mk.injEq] at h
        rw [← h.1]; exact fun x hx => Or.inl hx
      · split at h
        · simp only [Except.ok.injEq, Prod.mk.injEq] at h
          rw [← h.1]; exact fun x hx => Or.inl hx
        · split at h
          · simp only [Except.ok.injEq, Prod.mk.injEq] at h
            rw [← h.1]; exact fun x hx => Or.inl hx
          · split at h
            · cases h
            · split at h
              · simp only [Except.ok.injEq, Prod.mk.injEq] at h
                rw [← h.1]
                split
                · rw [add_to_waiting_list_members]; exact fun x hx => Or.inl hx
                · exact fun x hx => Or.inl hx
              · rename_i hlim
                split at h
                · simp only [Except.ok.injEq, Prod.mk.injEq] at h
                  rw [← h.1]; exact fun x hx => Or.inl hx
                · rename_i hlimit
                  split at h
                  · simp only [Except.ok.injEq, Prod.mk.injEq] at h
                    rw [← h.1]; exact fun x hx => Or.inl hx
                  · split at h
                    · cases h
                    · simp only [Except.ok.injEq, Prod.mk.injEq] at h
                      rw [← h.1, record_transaction_members]
                      intro x hx
                      exact memberStep_set lib.members mi member _ x hm hx
                        ⟨rfl, Or.inr (Or.inl ⟨rfl, Int.lt_of_not_ge hlimit⟩)⟩

theorem finishReturn_step (lib lib1 : Library) (mi bi : Nat) (book : Book)
    (member : Member) (isbn : String) (now r : Int)
    (h : finishReturn lib mi bi book member isbn now = Except.ok (lib1, r)) :
    ∃ member2, lib1.members = lib.members.set mi member2 ∧
      member2.membership_type = member.membership_type ∧
      (member2.num_borrowed = member.num_borrowed ∨
        (member2.num_borrowed = member.num_borrowed - 1 ∧ 0 < member.num_borrowed)) := by
  unfold finishReturn at h
  simp only at h
  split at h
  · cases h
  · rename_i member1 hrem
    simp only [Except.ok.injEq, Prod.mk.injEq] at h
    obtain ⟨ht, hn⟩ := removeBorrowed_step _ _ _ _ hrem
    refine ⟨{ member1 with last_activity := now }, ?_, ht, hn⟩
    rw [← h.1, process_waiting_list_members, record_transaction_members]

theorem return_book_step (lib lib1 : Library) (member_id : Int) (isbn : String) (now : Int)
    (late_fee : Rat) (r : Int)
    (h : return_book lib member_id isbn now late_fee = Except.ok (lib1, r)) :
    ∀ x ∈ lib1.members, MemberStep lib.members x := by
  unfold return_book at h
  split at h
  · simp only [Except.ok.injEq, Prod.mk.injEq] at h
    rw [← h.1]; exact fun x hx => Or.inl hx
  · split at h
    · cases h
    · rename_i mi _ _ member hm
      split at h
      · simp only [Except.ok.injEq, Prod.mk.injEq] at h
        rw [← h.1]; exact fun x hx => Or.inl hx
      · split at h
        · cases h
        · split at h
          · simp only [Except.ok.injEq, Prod.mk.injEq] at h
            rw [← h.1]; exact fun x hx => Or.inl hx
          · split at h
            · obtain ⟨member2, h1, ht, hn⟩ := finishReturn_step _ _ _ _ _ _ _ _ _ h
              rw [h1, record_transaction_members]
              intro x hx
              refine memberStep_set lib.members mi member member2 x hm hx ⟨ht, ?_⟩
              rcases hn with hn | hn
              · exact Or.inl hn
              · exact Or.inr (Or.inr hn)
            · obtain ⟨member2, h1, ht, hn⟩ := finishReturn_step _ _ _ _ _ _ _ _ _ h
              rw [h1]
              intro x hx
              refine memberStep_set lib.members mi member member2 x hm hx ⟨ht, ?_⟩
              rcases hn with hn | hn
              · exact Or.inl hn
              · exact Or.inr (Or.inr hn)

theorem call_step (lib lib1 : Library) (c : Call) (r : Int)
    (h : call lib c = Except.ok (lib1, r)) :
    ∀ x ∈ lib1.members, MemberStep lib.members x := by
  cases c with
  | add_book isbn title author genre year pp rp copies now =>
    rw [add_book_members lib lib1 isbn title author genre year pp rp copies now r h]
    exact fun x hx => Or.inl hx
  | create_member name email phone type now expiry =>
    exact create_member_step lib lib1 name email phone type now expiry r h
  | cancel_membership member_id => exact cancel_membership_step lib lib1 member_id r h
  | borrow_book member_id isbn now due join =>
    exact borrow_book_step lib lib1 member_id isbn now due join r h
  | return_book member_id isbn now late_fee =>
    exact return_book_step lib lib1 member_id isbn now late_fee r h
  | purchase_book member_id isbn now confirm =>
    exact purchase_book_step lib lib1 member_id isbn now confirm r h

theorem runCalls_within (cs : List Call) :
    ∀ lib lib1, (∀ m ∈ lib.members, WithinLimit m) → runCalls lib cs = Except.ok lib1 →
      ∀ m ∈ lib1.members, WithinLimit m := by
  induction cs with
  | nil =>
    intro lib lib1 hw h
    simp only [runCalls, Except.ok.injEq] at h
    rw [← h]; exact hw
  | cons c cs ih =>
    intro lib lib1 hw h
    simp only [runCalls] at h
    split at h
    · cases h
    · rename_i lib2 r hcall
      exact ih lib2 lib1
        (fun m hm => withinLimit_of_step lib.members m hw (call_step lib lib2 c r hcall m hm)) h

theorem thenAddBook_members (res : Except Fault Library) (isbn title author : String)
    (genre : GenreType) (year : Int) (pp rp : Rat) (copies now : Int) (lib1 : Library)
    (h : thenAddBook res isbn title author genre year pp rp copies now = Except.ok lib1) :
    ∃ lib, res = Except.ok lib ∧ lib1.members = lib.members := by
  unfold thenAddBook at h
  split at h
  · cases h
  · rename_i lib
    split at h
    · cases h
    · rename_i lib2 r hadd
      simp only [Except.ok.injEq] at h
      subst h
      exact ⟨lib, rfl, add_book_members _ _ _ _ _ _ _ _ _ _ _ _ hadd⟩

theorem initialize_library_members (now : Int) (lib0 : Library)
    (h : initialize_library now = Except.ok lib0) : lib0.members = [] := by
  unfold initialize_library at h
  obtain ⟨l4, h4, e4⟩ := thenAddBook_members _ _ _ _ _ _ _ _ _ _ _ h
  obtain ⟨l3, h3, e3⟩ := thenAddBook_members _ _ _ _ _ _ _ _ _ _ _ h4
  obtain ⟨l2, h2, e2⟩ := thenAddBook_members _ _ _ _ _ _ _ _ _ _ _ h3
  obtain ⟨l1, h1, e1⟩ := thenAddBook_members _ _ _ _ _ _ _ _ _ _ _ h2
  obtain ⟨l0, h0, e0⟩ := thenAddBook_members _ _ _ _ _ _ _ _ _ _ _ h1
  simp only [Except.ok.injEq] at h0
  rw [e4, e3, e2, e1, e0, ← h0]
  rfl

theorem reachable_within (lib : Library) (h : Reachable lib) :
    ∀ m ∈ lib.members, WithinLimit m := by
  obtain ⟨now, lib0, cs, hinit, hrun⟩ := h
  refine runCalls_within cs lib0 lib ?_ hrun
  rw [initialize_library_members now lib0 hinit]
  intro m hm
  cases hm

theorem borrow_book_in_bounds (lib : Library) (hw : ∀ m ∈ lib.members, WithinLimit m)
    (member_id : Int) (isbn : String) (now due : Int) (join : Bool) :
    borrow_book lib member_id isbn now due join ≠ Except.error Fault.indexOutOfBounds := by
  intro h
  unfold borrow_book at h
  split at h
  · cases h
  · rename_i mi hfind
    obtain ⟨a, ha, _⟩ := firstIndex_some _ _ _ hfind
    split at h
    · rename_i hnone
      rw [ha] at hnone; cases hnone
    · rename_i member hm
      split at h
      · cases h
      · split at h
        · cases h
        · split at h
          · cases h
          · rename_i bi hbfind
            obtain ⟨b, hb, _⟩ := firstIndex_some _ _ _ hbfind
            split at h
            · rename_i hnone
              rw [hb] at hnone; cases hnone
            · split at h
              · cases h
              · split at h
                · cases h
                · rename_i hlimit
                  split at h
                  · cases h
                  · split at h
                    · rename_i hbad
                      obtain ⟨h0, h1, h2⟩ := hw member (List.getElem?_mem hm)
                      have h3 : (MAX_BORROWED_BOOKS : Int) = 20 := rfl
                      rcases hbad with hbad | hbad
                      · omega
                      · omega
                    · cases h

/-- C28: in every library reached from initialize_library by calls of add_book,
create_member, cancel_membership, borrow_book, return_book and purchase_book,
every member has 0 <= num_borrowed <= get_borrow_limit(membership_type) <=
MAX_BORROWED_BOOKS, and no call of borrow_book writes outside the array
borrowed_books or reads outside books or members. -/
theorem borrowed_within_limit (lib : Library) (h : Reachable lib) :
    (∀ m ∈ lib.members,
      0 ≤ m.num_borrowed ∧ m.num_borrowed ≤ get_borrow_limit m.membership_type ∧
      get_borrow_limit m.membership_type ≤ (MAX_BORROWED_BOOKS : Int)) ∧
    (∀ member_id isbn now due join,
      borrow_book lib member_id isbn now due join ≠ Except.error Fault.indexOutOfBounds) :=
  ⟨reachable_within lib h, borrow_book_in_bounds lib (reachable_within lib h)⟩

/-- Witness of C28: a basic member who has borrowed three books and is refused
a fourth. -/
theorem borrowed_within_limit_witness :
    ∃ lib0 lib, initialize_library 0 = Except.ok lib0 ∧
      runCalls lib0
        [Call.create_member "Ann" "ann@example.org" "0123456789"
           MembershipType.MEMBERSHIP_BASIC 0 31536000,
         Call.borrow_book 1001 "978-0-123456-78-9" 0 1209600 false,
         Call.borrow_book 1001 "978-0-987654-32-1" 0 1209600 false,
         Call.borrow_book 1001 "978-1-234567-89-0" 0 1209600 false,
         Call.borrow_book 1001 "978-0-555555-55-5" 0 1209600 false] = Except.ok lib ∧
      lib.members.map (fun m => m.num_borrowed) = [3] ∧
      (∀ m ∈ lib.members,
        0 ≤ m.num_borrowed ∧ m.num_borrowed ≤ get_borrow_limit m.membership_type ∧
        get_borrow_limit m.membership_type ≤ (MAX_BORROWED_BOOKS : Int)) :=
  ⟨_, _, rfl, rfl, rfl,
    (borrowed_within_limit _
      ⟨0, _,
       [Call.create_member "Ann" "ann@example.org" "0123456789"
           MembershipType.MEMBERSHIP_BASIC 0 31536000,
         Call.borrow_book 1001 "978-0-123456-78-9" 0 1209600 false,
         Call.borrow_book 1001 "978-0-987654-32-1" 0 1209600 false,
         Call.borrow_book 1001 "978-1-234567-89-0" 0 1209600 false,
         Call.borrow_book 1001 "978-0-555555-55-5" 0 1209600 false], rfl, rfl⟩).1⟩

/-! ## Adding a book -/

theorem find_book_none_iff (lib : Library) (isbn : String) :
    find_book_by_isbn lib isbn = none ↔ ∀ b ∈ lib.books, b.isbn ≠ isbn := by
  unfold find_book_by_isbn
  rw [firstIndex_none]
  constructor
  · intro h b hb
    have := h b hb
    simpa using this
  · intro h b hb
    simpa using h b hb

theorem add_book_cases (lib : Library) (isbn title author : String) (genre : GenreType)
    (year : Int) (pp rp : Rat) (copies now : Int) :
    (MAX_BOOKS ≤ lib.books.length ∨ ¬ (∀ b ∈ lib.books, b.isbn ≠ isbn) →
      add_book lib isbn title author genre year pp rp copies now = Except.ok (lib, 0)) ∧
    (lib.books.length < MAX_BOOKS → (∀ b ∈ lib.books, b.isbn ≠ isbn) →
      (MAX_ISBN_LENGTH ≤ isbn.length ∨ MAX_TITLE_LENGTH ≤ title.length ∨
        MAX_AUTHOR_LENGTH ≤ author.length) →
      add_book lib isbn title author genre year pp rp copies now =
        Except.error Fault.bufferOverflow) ∧
    (lib.books.length < MAX_BOOKS → (∀ b ∈ lib.books, b.isbn ≠ isbn) →
      isbn.length < MAX_ISBN_LENGTH → title.length < MAX_TITLE_LENGTH →
      author.length < MAX_AUTHOR_LENGTH →
      add_book lib isbn title author genre year pp rp copies now =
        Except.ok
          ({ lib with
             books := lib.books ++
               [{ isbn := isbn, title := title, author := author, genre := genre,
                  publication_year := year, status := BookStatus.BOOK_AVAILABLE,
                  purchase_price := pp, rental_price := rp,
                  total_copies := copies, available_copies := copies,
                  times_borrowed := 0, times_purchased := 0, date_added := now,
                  current_borrower_id := 0, due_date := 0, waiting_list := [],
                  waiting_count := 0 }] }, 1)) := by
  refine ⟨?_, ?_, ?_⟩
  · intro h
    unfold add_book
    by_cases hcap : MAX_BOOKS ≤ lib.books.length
    · rw [if_pos hcap]
    · rw [if_neg hcap]
      rcases h with h | h
      · exact absurd h hcap
      · have hsome : (find_book_by_isbn lib isbn).isSome = true := by
          cases hf : find_book_by_isbn lib isbn with
          | none => exact absurd ((find_book_none_iff lib isbn).mp hf) h
          | some i => rfl
        rw [if_pos hsome]
  · intro hcap hnew hlong
    unfold add_book
    rw [if_neg (Nat.not_le.mpr hcap), (find_book_none_iff lib isbn).mpr hnew]
    simp only [Option.isSome_none, Bool.false_eq_true, if_false]
    rw [if_pos hlong]
  · intro hcap hnew h1 h2 h3
    unfold add_book
    rw [if_neg (Nat.not_le.mpr hcap), (find_book_none_iff lib isbn).mpr hnew]
    simp only [Option.isSome_none, Bool.false_eq_true, if_false]
    rw [if_neg (by omega)]

/-- C29, as stated, fails on the code: add_book copies its strings with strcpy
and no length check. On the initialised library, which has 5 books with distinct
ISBNs, a new ISBN of 20 characters does not fit the field of 20 bytes with its
NUL; the call writes past the field instead of returning 1. -/
theorem add_book_long_isbn_overflows :
    ∃ lib0, initialize_library 0 = Except.ok lib0 ∧
      lib0.books.length = 5 ∧
      find_book_by_isbn lib0 "978-0-123456-78-9000" = none ∧
      "978-0-123456-78-9000".length = MAX_ISBN_LENGTH ∧
      add_book lib0 "978-0-123456-78-9000" "T" "A" GenreType.GENRE_OTHER 2000 1 1 1 0 =
        Except.error Fault.bufferOverflow :=
  ⟨_, rfl, rfl, rfl, rfl, rfl⟩

/-- C29, amended: on a library whose books have pairwise distinct ISBNs, every
call of add_book that returns leaves the ISBNs pairwise distinct. When isbn,
title and author fit their fields (fewer than 20, 200 and 100 characters), the
call returns; it returns 1 and has one book more exactly when book_count was
below MAX_BOOKS and no book had the given ISBN, and otherwise it returns 0 and
leaves the library unchanged. -/
theorem add_book_keeps_isbn_distinct (lib : Library) (isbn title author : String)
    (genre : GenreType) (year : Int) (pp rp : Rat) (copies now : Int)
    (hd : DistinctIsbn lib) :
    (∀ lib1 r, add_book lib isbn title author genre year pp rp copies now =
        Except.ok (lib1, r) → DistinctIsbn lib1) ∧
    (isbn.length < MAX_ISBN_LENGTH → title.length < MAX_TITLE_LENGTH →
      author.length < MAX_AUTHOR_LENGTH →
      ∃ lib1 r, add_book lib isbn title author genre year pp rp copies now =
          Except.ok (lib1, r) ∧
        ((r = 1 ∧ lib1.books.length = lib.books.length + 1) ↔
          (lib.books.length < MAX_BOOKS ∧ ∀ b ∈ lib.books, b.isbn ≠ isbn)) ∧
        (¬ (lib.books.length < MAX_BOOKS ∧ ∀ b ∈ lib.books, b.isbn ≠ isbn) →
          r = 0 ∧ lib1 = lib)) := by
  obtain ⟨hrej, hover, hacc⟩ := add_book_cases lib isbn title author genre year pp rp copies now
  constructor
  · intro lib1 r h
    by_cases hok : lib.books.length < MAX_BOOKS ∧ ∀ b ∈ lib.books, b.isbn ≠ isbn
    · by_cases hfit : isbn.length < MAX_ISBN_LENGTH ∧ title.length < MAX_TITLE_LENGTH ∧
          author.length < MAX_AUTHOR_LENGTH
      · rw [hacc hok.1 hok.2 hfit.1 hfit.2.1 hfit.2.2] at h
        simp only [Except.ok.injEq, Prod.mk.injEq] at h
        rw [← h.1]
        unfold DistinctIsbn
        simp only
        rw [List.pairwise_append]
        refine ⟨hd, List.pairwise_singleton _ _, ?_⟩
        intro a ha b hb
        simp only [List.mem_singleton] at hb
        subst hb
        exact hok.2 a ha
      · rw [hover hok.1 hok.2 (by omega)] at h
        cases h
    · rw [hrej (by
        by_cases hcap : lib.books.length < MAX_BOOKS
        · exact Or.inr (fun hall => hok ⟨hcap, hall⟩)
        · exact Or.inl (Nat.le_of_not_lt hcap))] at h
      simp only [Except.ok.injEq, Prod.mk.injEq] at h
      rw [← h.1]
      exact hd
  · intro h1 h2 h3
    by_cases hok : lib.books.length < MAX_BOOKS ∧ ∀ b ∈ lib.books, b.isbn ≠ isbn
    · refine ⟨_, 1, hacc hok.1 hok.2 h1 h2 h3, ?_, fun hn => absurd hok hn⟩
      constructor
      · intro _; exact hok
      · intro _; exact ⟨rfl, by simp⟩
    · refine ⟨lib, 0, hrej (by
        by_cases hcap : lib.books.length < MAX_BOOKS
        · exact Or.inr (fun hall => hok ⟨hcap, hall⟩)
        · exact Or.inl (Nat.le_of_not_lt hcap)), ?_, fun _ => ⟨rfl, rfl⟩⟩
      constructor
      · intro h; exact absurd h.1 (by decide)
      · intro h; exact absurd h hok

/-- Witness of C29, amended: on the library with the one book "111", add_book
with the new ISBN "222" returns 1 and adds the book, and add_book with "111"
again returns 0 and changes nothing. -/
theorem add_book_keeps_isbn_distinct_witness :
    ∃ lib lib1 lib2,
      add_book emptyLibrary "111" "T" "A" GenreType.GENRE_OTHER 2000 1 1 1 0 =
        Except.ok (lib, 1) ∧
      add_book lib "222" "T" "A" GenreType.GENRE_OTHER 2000 1 1 1 0 = Except.ok (lib1, 1) ∧
      lib1.books.map (fun b => b.isbn) = ["111", "222"] ∧
      add_book lib1 "111" "T" "A" GenreType.GENRE_OTHER 2000 1 1 1 0 = Except.ok (lib2, 0) ∧
      lib2 = lib1 ∧ DistinctIsbn lib1 ∧ DistinctIsbn lib2 :=
  ⟨_, _, _, rfl, rfl, rfl, rfl, rfl,
    (add_book_keeps_isbn_distinct _ "222" "T" "A" GenreType.GENRE_OTHER 2000 1 1 1 0
      ((add_book_keeps_isbn_distinct emptyLibrary "111" "T" "A" GenreType.GENRE_OTHER 2000 1 1 1 0
        List.Pairwise.nil).1 _ 1 rfl)).1 _ 1 rfl,
    (add_book_keeps_isbn_distinct _ "111" "T" "A" GenreType.GENRE_OTHER 2000 1 1 1 0
      ((add_book_keeps_isbn_distinct _ "222" "T" "A" GenreType.GENRE_OTHER 2000 1 1 1 0
        ((add_book_keeps_isbn_distinct emptyLibrary "111" "T" "A" GenreType.GENRE_OTHER
          2000 1 1 1 0 List.Pairwise.nil).1 _ 1 rfl)).1 _ 1 rfl)).1 _ 0 rfl⟩

end Lib
